import Mathlib

/-!
Verification development for the script interpreter layer of a
Bitcoin-family sidechain node (the contract is `src/script/interpreter.h`).
The header declares `EvalScript`, `VerifyScript`, `SignatureHash`, the
signature-hash type constants, the script-verification flag bits, and the
signature-checker class hierarchy with its inline base-class defaults.
The bodies of `EvalScript`, `VerifyScript`, `SignatureHash` and of the
transaction-bound checker methods live in `interpreter.cpp`, which is not
part of the repository snapshot; those are modelled here from the
specification (each such definition carries a doc comment starting with
Modelled from the spec).  Scripts are byte strings (`List Nat`), stack
items are byte strings, and machine integers are modelled as `Nat`/`Int`.
-/

namespace Elements

/-- Stack item: a byte vector (`std::vector<unsigned char>`). -/
abbrev Item := List Nat

/-- Value stack: a list of items, head of the list is the top of the stack. -/
abbrev Stack := List Item

/-- Modelled from the spec: the `ScriptError` enumeration of `script_error.h`
(not in the snapshot); section 6 of the spec lists the error kinds. -/
inductive ScriptError where
  | unknownError
  | evalFalse
  | opReturn
  | scriptSize
  | pushSize
  | opCount
  | stackSize
  | sigCount
  | pubkeyCount
  | badOpcode
  | disabledOpcode
  | invalidStackOperation
  | invalidAltstackOperation
  | unbalancedConditional
  | verifyFailed
  | equalVerifyFailed
  | checkSigVerifyFailed
  | checkMultisigVerifyFailed
  | negativeLocktime
  | unsatisfiedLocktime
  | sigDer
  | sigHighS
  | sigHashType
  | pubkeyType
  | sigNullDummy
  | minimalData
  | sigPushOnly
  | discourageUpgradableNops
  | withdrawVerifyFailed
  | cleanStack
  | p2shHashMismatch
deriving DecidableEq, Repr

instance {ε α : Type} [DecidableEq ε] [DecidableEq α] : DecidableEq (Except ε α) := fun a b =>
  match a, b with
  | .ok x, .ok y =>
    if h : x = y then .isTrue (by rw [h]) else .isFalse (fun hc => h (by injection hc))
  | .ok _, .error _ => .isFalse (fun hc => Except.noConfusion hc)
  | .error _, .ok _ => .isFalse (fun hc => Except.noConfusion hc)
  | .error x, .error y =>
    if h : x = y then .isTrue (by rw [h]) else .isFalse (fun hc => h (by injection hc))

/-! ## Script numbers (`CScriptNum`)

Little-endian, sign-and-magnitude with the sign in the high bit of the last
byte; bounded to `maxSize` bytes on decode; minimal-encoding rule per
BIP62 rule 4 (spec section 4.1). -/

/-- Little-endian magnitude bytes of a natural number, fuel-indexed so the
recursion is structural (the value itself is always sufficient fuel). -/
def encodeMagnitudeFuel : Nat → Nat → List Nat
  | 0, _ => []
  | fuel + 1, n => if n = 0 then [] else (n % 256) :: encodeMagnitudeFuel fuel (n / 256)

/-- Little-endian magnitude bytes of a natural number (no sign handling). -/
def encodeMagnitude (n : Nat) : List Nat := encodeMagnitudeFuel n n

/-- Modelled from the spec: `CScriptNum` serialization (little-endian, sign
bit in the high bit of the last byte, minimal length). -/
def encodeNum (n : Int) : List Nat :=
  if n = 0 then [] else
  let m := encodeMagnitude n.natAbs
  match m.getLast? with
  | none => []
  | some lastByte =>
    if 128 ≤ lastByte then m ++ [if n < 0 then 128 else 0]
    else if n < 0 then m.dropLast ++ [lastByte + 128] else m

/-- Value of little-endian bytes as a natural number. -/
def leBytesToNat : List Nat → Nat
  | [] => 0
  | b :: bs => b + 256 * leBytesToNat bs

/-- Modelled from the spec: raw `CScriptNum` decoding, ignoring size and
minimality constraints. -/
def rawDecodeNum (v : List Nat) : Int :=
  match v.getLast? with
  | none => 0
  | some lastByte =>
    let mag : Nat := leBytesToNat v.dropLast + (lastByte % 128) * 256 ^ (v.length - 1)
    if 128 ≤ lastByte then -(mag : Int) else (mag : Int)

/-- Modelled from the spec: the BIP62 rule-4 minimality test for a stack
item interpreted as a number (no redundant sign-padding byte). -/
def isMinimallyEncodedNum (v : List Nat) : Bool :=
  match v.getLast? with
  | none => true
  | some lastByte =>
    if lastByte % 128 ≠ 0 then true
    else
      match v.dropLast.getLast? with
      | none => false
      | some b2 => 128 ≤ b2 % 256

/-- Modelled from the spec: decoding a stack item as a script number.  Fails
if the item exceeds `maxSize` bytes, or (when `requireMinimal`) if the item
is not the shortest possible encoding. -/
def decodeNum (requireMinimal : Bool) (maxSize : Nat) (v : List Nat) : Except ScriptError Int :=
  if maxSize < v.length then .error .unknownError
  else if requireMinimal ∧ ¬(isMinimallyEncodedNum v = true) then .error .minimalData
  else .ok (rawDecodeNum v)

/-- Modelled from the spec: `CastToBool` — a stack item is false iff it is
all zero bytes except possibly a single trailing sign byte `0x80`. -/
def castToBool : List Nat → Bool
  | [] => false
  | [b] => decide ¬(b = 0 ∨ b = 128)
  | b :: rest => if b = 0 then castToBool rest else true

/-- Canonical boolean stack item (`vchTrue` / `vchFalse`). -/
def boolItem (b : Bool) : Item := if b then [1] else []

/-! ## Script decoding (`CScript::GetOp`) -/

/-- Modelled from the spec: decode one opcode (with its immediate push data)
from the byte stream.  `b` is the opcode byte, `rest` the bytes after it.
Returns the opcode, the pushed data and the remaining bytes, or `none` when
a push-length encoding reads past the end of the script. -/
def readData (op n : Nat) (r : List Nat) : Option (Nat × List Nat × List Nat) :=
  if r.length < n then none else some (op, r.take n, r.drop n)

def getOp (b : Nat) (rest : List Nat) : Option (Nat × List Nat × List Nat) :=
  if b ≤ 75 then readData b b rest
  else if b = 76 then
    match rest with
    | n :: r2 => readData b n r2
    | [] => none
  else if b = 77 then
    match rest with
    | n1 :: n2 :: r2 => readData b (n1 + 256 * n2) r2
    | _ => none
  else if b = 78 then
    match rest with
    | n1 :: n2 :: n3 :: n4 :: r2 => readData b (n1 + 256 * n2 + 65536 * n3 + 16777216 * n4) r2
    | _ => none
  else some (b, [], rest)

theorem readData_rest_length_le {op n : Nat} {r : List Nat} {o2 : Nat} {d r2 : List Nat}
    (h : readData op n r = some (o2, d, r2)) : r2.length ≤ r.length := by
  unfold readData at h
  split_ifs at h
  simp only [Option.some.injEq, Prod.mk.injEq] at h
  obtain ⟨-, -, h9⟩ := h
  subst h9
  simp [List.length_drop]

theorem getOp_rest_length_le {b : Nat} {rest : List Nat} {op : Nat} {d r2 : List Nat}
    (h : getOp b rest = some (op, d, r2)) : r2.length ≤ rest.length := by
  unfold getOp at h
  split_ifs at h
  · exact readData_rest_length_le h
  · split at h
    · have := readData_rest_length_le h
      simp only [List.length_cons]
      omega
    · exact Option.noConfusion h
  · split at h
    · have := readData_rest_length_le h
      simp only [List.length_cons]
      omega
    · exact Option.noConfusion h
  · split at h
    · have := readData_rest_length_le h
      simp only [List.length_cons]
      omega
    · exact Option.noConfusion h
  · simp only [Option.some.injEq, Prod.mk.injEq] at h
    obtain ⟨-, -, h9⟩ := h
    subst h9
    exact Nat.le_refl _

/-- Modelled from the spec: serialize an item as the push operation
`CScript() << data` would produce (used by the legacy FIND_AND_DELETE
semantics of signature checking). -/
def pushEncode (d : List Nat) : List Nat :=
  if d.length ≤ 75 then d.length :: d
  else if d.length ≤ 255 then 76 :: d.length :: d
  else if d.length ≤ 65535 then 77 :: d.length % 256 :: d.length / 256 :: d
  else 78 :: d.length % 256 :: d.length / 256 % 256 :: d.length / 65536 % 256 :: d.length / 16777216 :: d

/-- Fuel-indexed body of `findAndDelete` (each iteration consumes at least
one byte of the script when the pattern is non-empty, so the script length
is always sufficient fuel). -/
def findAndDeleteFuel : Nat → List Nat → List Nat → List Nat
  | 0, _, s => s
  | fuel + 1, pat, s =>
    if pat.isPrefixOf s then findAndDeleteFuel fuel pat (s.drop pat.length)
    else
      match s with
      | [] => []
      | c :: cs => c :: findAndDeleteFuel fuel pat cs

/-- Modelled from the spec: `CScript::FindAndDelete` — remove every
occurrence of the byte pattern `pat` from the script (simplified: matches
anywhere in the byte stream, the reference matches at opcode boundaries). -/
def findAndDelete (pat : List Nat) (s : List Nat) : List Nat :=
  if pat.isEmpty then s else findAndDeleteFuel s.length pat s

/-- Fuel-indexed body of `isPushOnly` (each operation consumes at least one
byte, so the script length is always sufficient fuel). -/
def isPushOnlyFuel : Nat → List Nat → Bool
  | 0, s => s.isEmpty
  | fuel + 1, s =>
    match s with
    | [] => true
    | b :: rest =>
      if 96 < b then false
      else
        match getOp b rest with
        | none => false
        | some (_, _, r2) => isPushOnlyFuel fuel r2

/-- Modelled from the spec: `CScript::IsPushOnly` — every operation in the
script is a push (opcode at most `OP_16`); malformed scripts are not
push-only. -/
def isPushOnly (s : List Nat) : Bool := isPushOnlyFuel s.length s

/-- Modelled from the spec: `CheckMinimalPush` (BIP62 rule 3) — the push
operation used must be the smallest one able to push the data. -/
def checkMinimalPush (d : List Nat) (op : Nat) : Bool :=
  if d.length = 0 then op = 0
  else if d.length = 1 ∧ 1 ≤ d.headI ∧ d.headI ≤ 16 then false
  else if d.length = 1 ∧ d.headI = 129 then false
  else if d.length ≤ 75 then op = d.length
  else if d.length ≤ 255 then op = 76
  else if d.length ≤ 65535 then op = 77
  else true

/-- Modelled from the spec: `CScript::IsPayToScriptHash` — the canonical
template `OP_HASH160 <20 bytes> OP_EQUAL`, 23 bytes long. -/
def isPayToScriptHash (s : List Nat) : Bool :=
  s.length = 23 ∧ s.headI = 169 ∧ s.getD 1 0 = 20 ∧ s.getD 22 0 = 135

/-! ## Signature hash types and script verification flags (`interpreter.h`) -/

def SIGHASH_ALL : Nat := 1
def SIGHASH_NONE : Nat := 2
def SIGHASH_SINGLE : Nat := 3
def SIGHASH_ANYONECANPAY : Nat := 128

def SCRIPT_VERIFY_NONE : Nat := 0
def SCRIPT_VERIFY_P2SH : Nat := 1 <<< 0
def SCRIPT_VERIFY_STRICTENC : Nat := 1 <<< 1
def SCRIPT_VERIFY_DERSIG : Nat := 1 <<< 2
def SCRIPT_VERIFY_LOW_S : Nat := 1 <<< 3
def SCRIPT_VERIFY_NULLDUMMY : Nat := 1 <<< 4
def SCRIPT_VERIFY_SIGPUSHONLY : Nat := 1 <<< 5
def SCRIPT_VERIFY_MINIMALDATA : Nat := 1 <<< 6
def SCRIPT_VERIFY_DISCOURAGE_UPGRADABLE_NOPS : Nat := 1 <<< 7
def SCRIPT_VERIFY_CHECKLOCKTIMEVERIFY : Nat := 1 <<< 9
def SCRIPT_VERIFY_CHECKSEQUENCEVERIFY : Nat := 1 <<< 10
def SCRIPT_VERIFY_WITHDRAW : Nat := 1 <<< 11
def SCRIPT_VERIFY_INCREASE_CONFIRMATIONS_REQUIRED : Nat := 1 <<< 12

/-- Decoded view of the flag word: one boolean per verification flag bit of
`interpreter.h`. -/
structure VFlags where
  p2sh : Bool
  strictenc : Bool
  dersig : Bool
  lows : Bool
  nulldummy : Bool
  sigpushonly : Bool
  minimaldata : Bool
  discourageNops : Bool
  cltv : Bool
  csv : Bool
  withdraw : Bool
  increaseConfirm : Bool
deriving DecidableEq, Repr

/-- Decode the `unsigned int flags` word into its individual flag bits. -/
def toVFlags (flags : Nat) : VFlags :=
  { p2sh := flags.testBit 0
    strictenc := flags.testBit 1
    dersig := flags.testBit 2
    lows := flags.testBit 3
    nulldummy := flags.testBit 4
    sigpushonly := flags.testBit 5
    minimaldata := flags.testBit 6
    discourageNops := flags.testBit 7
    cltv := flags.testBit 9
    csv := flags.testBit 10
    withdraw := flags.testBit 11
    increaseConfirm := flags.testBit 12 }

/-! ## Transaction data model (`primitives/transaction.h`, interface only)

The spec treats `CTransaction`, `CTxOut`, `COutPoint`, `uint256` as external
data-model types with a narrow interface; a confidential `CTxOutValue` is
either an explicit amount or an opaque commitment. -/

structure COutPoint where
  hash : List Nat
  n : Nat
deriving DecidableEq, Repr

/-- Confidential output value: an explicit integer amount or an opaque
cryptographic commitment (spec section 3). -/
inductive CTxOutValue where
  | explicitAmount (a : Int)
  | commitment (c : List Nat)
deriving DecidableEq, Repr

structure CTxIn where
  prevout : COutPoint
  scriptSig : List Nat
  nSequence : Nat
deriving DecidableEq, Repr

structure CTxOut where
  nValue : CTxOutValue
  scriptPubKey : List Nat
deriving DecidableEq, Repr

/-- Null output, as produced by `CTxOut()` / `SetNull` (value `-1`, empty
script); used for the blanked outputs of the SINGLE sighash mode and as the
base checker's safe default. -/
def nullCTxOut : CTxOut := { nValue := .explicitAmount (-1), scriptPubKey := [] }

/-- Null previous-output reference (zero hash, index `0xffffffff`). -/
def nullCOutPoint : COutPoint := { hash := List.replicate 32 0, n := 4294967295 }

structure CTransaction where
  nVersion : Int
  vin : List CTxIn
  vout : List CTxOut
  nLockTime : Nat
deriving DecidableEq, Repr

/-- Mutable transaction (`CMutableTransaction`): the same fields as
`CTransaction`, still being assembled by its owner. -/
structure CMutableTransaction where
  nVersion : Int
  vin : List CTxIn
  vout : List CTxOut
  nLockTime : Nat
deriving DecidableEq, Repr

/-- Conversion `CTransaction(const CMutableTransaction&)`: the finalized
value of a mutable transaction. -/
def toCTransaction (m : CMutableTransaction) : CTransaction :=
  { nVersion := m.nVersion, vin := m.vin, vout := m.vout, nLockTime := m.nLockTime }

/-! ## Signature hash algorithm (spec section 4.2)

The final double-SHA256 is an opaque external collaborator, so the digest is
modelled as the canonical modified view it is applied to: digest equality
mirrors preimage equality.  The historical out-of-range sentinel
`uint256(1)` is the distinguished value `SighashDigest.one`. -/

/-- Modified view of the transaction that the signature digest commits to. -/
structure SighashPreimage where
  nVersion : Int
  vin : List CTxIn
  vout : List CTxOut
  nLockTime : Nat
  nInValue : CTxOutValue
  nHashType : Nat
deriving DecidableEq, Repr

/-- Signature digest: the fixed sentinel value (historically `uint256(1)`)
or the digest of a serialized modified transaction view. -/
inductive SighashDigest where
  | one
  | digest (pre : SighashPreimage)
deriving DecidableEq, Repr

/-- Map with the absolute position of each element. -/
def mapWithIndex (f : Nat → α → β) : Nat → List α → List β
  | _, [] => []
  | i, a :: as => f i a :: mapWithIndex f (i + 1) as

/-- Modelled from the spec: the output list committed by `SIGHASH_SINGLE` —
keep only the output at the input's index, blanking every earlier output. -/
def singleOutputs : Nat → List CTxOut → List CTxOut
  | _, [] => []
  | 0, o :: _ => [o]
  | k + 1, _ :: os => nullCTxOut :: singleOutputs k os

/-- Modelled from the spec: `SignatureHash(scriptCode, nValue, txTo, nIn,
nHashType)` of `interpreter.cpp` (declared at `interpreter.h:90`).
Serializes a modified view of `txTo`: the signed input's script is replaced
by `scriptCode` and the other inputs' scripts are blanked; `SIGHASH_NONE`
drops all outputs and zeroes other inputs' sequence numbers; `SIGHASH_SINGLE`
truncates the outputs to the input's index, blanking the earlier ones, and
also zeroes other inputs' sequence numbers; `SIGHASH_ANYONECANPAY` drops all
other inputs.  The confidential input value is committed into the digest.
Out-of-range index references (no input at `nIn`, or no output at `nIn`
under SINGLE) yield the fixed sentinel digest instead of an error. -/
def SignatureHash (scriptCode : List Nat) (nValue : CTxOutValue) (txTo : CTransaction)
    (nIn : Nat) (nHashType : Nat) : SighashDigest :=
  if txTo.vin.length ≤ nIn then .one
  else
    let base := nHashType % 32
    if base = SIGHASH_SINGLE ∧ txTo.vout.length ≤ nIn then .one
    else
      let acp := 128 ≤ nHashType % 256
      let modIns :=
        if acp then
          match txTo.vin[nIn]? with
          | some txin => [{ txin with scriptSig := scriptCode }]
          | none => []
        else
          mapWithIndex
            (fun j txin =>
              { txin with
                scriptSig := if j = nIn then scriptCode else []
                nSequence :=
                  if (base = SIGHASH_NONE ∨ base = SIGHASH_SINGLE) ∧ j ≠ nIn then 0
                  else txin.nSequence })
            0 txTo.vin
      let modOuts :=
        if base = SIGHASH_NONE then []
        else if base = SIGHASH_SINGLE then singleOutputs nIn txTo.vout
        else txTo.vout
      .digest
        { nVersion := txTo.nVersion
          vin := modIns
          vout := modOuts
          nLockTime := txTo.nLockTime
          nInValue := nValue
          nHashType := nHashType }

/-! ## Signature checker hierarchy (`interpreter.h:92-174`)

The C++ virtual-dispatch hierarchy is modelled as a capability record; each
concrete class is a constructor function producing a record that overrides
the relevant fields of the base record, exactly as the derived classes
override the base class's virtual methods. -/

/-- Capability surface of `BaseSignatureChecker` (`interpreter.h:92-132`). -/
structure BaseSignatureChecker where
  checkSig : Item → Item → List Nat → Bool
  checkLockTime : Int → Bool → Bool
  getOutputOffsetFromCurrent : Int → CTxOut
  getPrevOut : COutPoint
  getValueIn : CTxOutValue
  getValueInPrevIn : CTxOutValue
  getTransactionFee : Int
  isConfirmedBitcoinBlock : Item → Bool → Bool

/-- The base checker instance: every capability returns the safe
unsupported default from the inline bodies of `interpreter.h:95-128`
(`CheckSig` and `CheckLockTime` and `IsConfirmedBitcoinBlock` return false,
the value and fee getters return the sentinel `-1`).  The bodies of
`GetOutputOffsetFromCurrent` and `GetPrevOut` are in the missing
`interpreter.cpp`; Modelled from the spec: they return a safe null default. -/
def baseSignatureChecker : BaseSignatureChecker :=
  { checkSig := fun _ _ _ => false
    checkLockTime := fun _ _ => false
    getOutputOffsetFromCurrent := fun _ => nullCTxOut
    getPrevOut := nullCOutPoint
    getValueIn := .explicitAmount (-1)
    getValueInPrevIn := .explicitAmount (-1)
    getTransactionFee := -1
    isConfirmedBitcoinBlock := fun _ _ => false }

/-- Lock-time comparability: both values in the same domain
(block-height-like below 500000000, or timestamp-like at or above it). -/
def sameLockDomain (a b : Int) : Bool :=
  (a < 500000000 ∧ b < 500000000) ∨ (500000000 ≤ a ∧ 500000000 ≤ b)

/-- Modelled from the spec: `CheckLockTime` of the transaction-bound
checkers (body in the missing `interpreter.cpp`).  The requested value and
the transaction's field must be in the same domain and the transaction's
field must be at least the requested value; the sequence-based (relative)
variant compares against the input's sequence number and additionally
requires that sequence number to mark the input lock-time-enabled (not the
final sequence number). -/
def txCheckLockTime (txTo : CTransaction) (nIn : Nat) (nLockTime : Int) (fSequence : Bool) : Bool :=
  match txTo.vin[nIn]? with
  | none => false
  | some txin =>
    if fSequence then
      sameLockDomain (txin.nSequence : Int) nLockTime
        && decide (nLockTime ≤ (txin.nSequence : Int))
        && decide (txin.nSequence ≠ 4294967295)
    else
      sameLockDomain (txTo.nLockTime : Int) nLockTime
        && decide (nLockTime ≤ (txTo.nLockTime : Int))

/-- Modelled from the spec: `CheckSig` of the transaction-bound checkers
(body in the missing `interpreter.cpp`).  The hash type is the final byte
of the signature; the digest of section 4.2 is computed over `scriptCode`
and the bound confidential input value, and the opaque elliptic-curve
verification primitive `verifier` decides the result. -/
def txCheckSig (verifier : Item → Item → SighashDigest → Bool) (txTo : CTransaction)
    (nIn : Nat) (nInValue : CTxOutValue) (vchSig vchPubKey : Item) (scriptCode : List Nat) : Bool :=
  if vchSig.isEmpty then false
  else
    verifier vchSig.dropLast vchPubKey
      (SignatureHash scriptCode nInValue txTo nIn (vchSig.getLast?.getD 0))

/-- Checker bound to a borrowed transaction (`interpreter.h:134-147`):
overrides `CheckSig`, `CheckLockTime` and `GetValueIn`, inheriting every
other capability from the base class. -/
def TransactionNoWithdrawsSignatureChecker (verifier : Item → Item → SighashDigest → Bool)
    (txTo : CTransaction) (nIn : Nat) (nInValue : CTxOutValue) : BaseSignatureChecker :=
  { baseSignatureChecker with
    checkSig := txCheckSig verifier txTo nIn nInValue
    checkLockTime := txCheckLockTime txTo nIn
    getValueIn := nInValue }

/-- Checker owning its transaction copy (`interpreter.h:149-156`): the
constructor copies the caller's mutable transaction into the member `txTo`
and initializes the base class with that embedded copy. -/
def MutableTransactionNoWithdrawsSignatureChecker (verifier : Item → Item → SighashDigest → Bool)
    (txToIn : CMutableTransaction) (nIn : Nat) (nInValue : CTxOutValue) : BaseSignatureChecker :=
  TransactionNoWithdrawsSignatureChecker verifier (toCTransaction txToIn) nIn nInValue

/-- Opaque hash collaborators consumed by the HASH160/HASH256 opcodes
(spec section 6: an opaque double-hash primitive). -/
structure HashOracle where
  hash160 : Item → Item
  hash256 : Item → Item

/-! ## Canonical-encoding predicates (flag-gated checks of spec section 4.4)

The byte-level DER grammar is not enumerated by the spec; these predicates
are simplified structural models, and every theorem below depends only on
their monotone flag gating, never on their internals. -/

/-- Modelled from the spec: structural validity of a strict-DER signature
(simplified: outer SEQUENCE tag, coherent length byte, sane total size). -/
def isValidSignatureEncoding (sig : List Nat) : Bool :=
  9 ≤ sig.length ∧ sig.length ≤ 73 ∧ sig.headI = 48 ∧ sig.getD 1 0 = sig.length - 3

/-- Modelled from the spec: the low-S test (simplified: the leading byte of
the S component has its high bit clear). -/
def isLowDERSignature (sig : List Nat) : Bool :=
  isValidSignatureEncoding sig && sig.getD (6 + sig.getD 3 0) 255 < 128

/-- Modelled from the spec: the hash-type byte of the signature, with the
ANYONECANPAY bit masked off, must be ALL, NONE or SINGLE. -/
def isDefinedHashtypeSignature (sig : List Nat) : Bool :=
  let ht := (sig.getLast?.getD 0) % 128
  1 ≤ ht ∧ ht ≤ 3

/-- Modelled from the spec: strict public-key encoding — uncompressed
(65 bytes, leading `0x04`) or compressed (33 bytes, leading `0x02`/`0x03`). -/
def isCompressedOrUncompressedPubKey (pk : List Nat) : Bool :=
  (pk.length = 65 ∧ pk.headI = 4) ∨ (pk.length = 33 ∧ (pk.headI = 2 ∨ pk.headI = 3))

/-- Modelled from the spec: `CheckSignatureEncoding` — the DER, low-S and
defined-hash-type checks, each gated by its verification flag. -/
def checkSigEncodingE (vf : VFlags) (sig : Item) : Except ScriptError Unit :=
  if sig.isEmpty then .ok ()
  else if (vf.dersig || vf.lows || vf.strictenc) && !isValidSignatureEncoding sig then .error .sigDer
  else if vf.lows && !isLowDERSignature sig then .error .sigHighS
  else if vf.strictenc && !isDefinedHashtypeSignature sig then .error .sigHashType
  else .ok ()

/-- Modelled from the spec: `CheckPubKeyEncoding`, gated by STRICTENC. -/
def checkPubKeyEncodingE (vf : VFlags) (pk : Item) : Except ScriptError Unit :=
  if vf.strictenc && !isCompressedOrUncompressedPubKey pk then .error .pubkeyType
  else .ok ()

/-! ## The stack machine (spec section 4.4, `EvalScript` of `interpreter.h:176`) -/

/-- Machine state of the evaluator: value stack, alt stack, pending
conditional-branch states (head is the innermost), and operation counter. -/
structure ExecState where
  stack : Stack
  altstack : Stack
  condStack : List Bool
  opCount : Nat
deriving DecidableEq, Repr

/-- Modelled from the spec: structurally disabled opcodes (removed splice,
bitwise and multiplicative arithmetic operations). -/
def isDisabledOpcode (op : Nat) : Bool :=
  op = 126 || op = 127 || op = 128 || op = 129 || op = 131 || op = 132 || op = 133 || op = 134 ||
  op = 141 || op = 142 || op = 149 || op = 150 || op = 151 || op = 152 || op = 153

/-- Modelled from the spec: OP_IF / OP_NOTIF — inside an executed branch,
pop the condition and open a branch frame; inside a skipped branch, open an
inactive frame. -/
def opIf (negate : Bool) (fExec : Bool) (st : ExecState) : Except ScriptError ExecState :=
  if fExec then
    match st.stack with
    | [] => .error .unbalancedConditional
    | top :: rest =>
      let v := castToBool top
      let v := if negate then !v else v
      .ok { st with stack := rest, condStack := v :: st.condStack }
  else .ok { st with condStack := false :: st.condStack }

/-- Modelled from the spec: OP_ELSE flips the innermost branch frame. -/
def opElse (st : ExecState) : Except ScriptError ExecState :=
  match st.condStack with
  | [] => .error .unbalancedConditional
  | c :: cs => .ok { st with condStack := (!c) :: cs }

/-- Modelled from the spec: OP_ENDIF closes the innermost branch frame. -/
def opEndif (st : ExecState) : Except ScriptError ExecState :=
  match st.condStack with
  | [] => .error .unbalancedConditional
  | _ :: cs => .ok { st with condStack := cs }

/-- Modelled from the spec: OP_VERIFY pops the top item and fails unless it
is truthy. -/
def opVerify (st : ExecState) : Except ScriptError ExecState :=
  match st.stack with
  | [] => .error .invalidStackOperation
  | top :: rest => if castToBool top then .ok { st with stack := rest } else .error .verifyFailed

/-- Modelled from the spec: OP_CHECKLOCKTIMEVERIFY / OP_CHECKSEQUENCEVERIFY
with the gating flag set — peek (do not pop) the top number (up to 5 bytes),
reject negative values, and delegate to the checker's `CheckLockTime`. -/
def opCheckLockTime (chk : BaseSignatureChecker) (vf : VFlags) (fSequence : Bool)
    (st : ExecState) : Except ScriptError ExecState :=
  match st.stack with
  | [] => .error .invalidStackOperation
  | top :: _ =>
    match decodeNum vf.minimaldata 5 top with
    | .error e => .error e
    | .ok n =>
      if n < 0 then .error .negativeLocktime
      else if chk.checkLockTime n fSequence then .ok st else .error .unsatisfiedLocktime

/-- Modelled from the spec: the withdraw-proof opcode with the WITHDRAW flag
set — the top item is a foreign-chain block hash whose confirmation is
queried through the checker, at the elevated depth when the
INCREASE_CONFIRMATIONS_REQUIRED flag is set; verify-style (consumes
nothing). -/
def opWithdrawProof (chk : BaseSignatureChecker) (vf : VFlags)
    (st : ExecState) : Except ScriptError ExecState :=
  match st.stack with
  | [] => .error .invalidStackOperation
  | top :: _ =>
    if top.length ≠ 32 then .error .withdrawVerifyFailed
    else if chk.isConfirmedBitcoinBlock top vf.increaseConfirm then .ok st
    else .error .withdrawVerifyFailed

/-- Modelled from the spec: the reorg-proof opcode with the WITHDRAW flag
set — requires the fee capability tier of the checker (the base checker's
sentinel `-1` makes it a script-level failure); verify-style. -/
def opReorgProof (chk : BaseSignatureChecker) (st : ExecState) : Except ScriptError ExecState :=
  if chk.getTransactionFee < 0 then .error .withdrawVerifyFailed else .ok st

/-- Modelled from the spec: an upgradable NOP — fails when the
DISCOURAGE_UPGRADABLE_NOPS flag is set, otherwise does nothing. -/
def opNopGate (vf : VFlags) (st : ExecState) : Except ScriptError ExecState :=
  if vf.discourageNops then .error .discourageUpgradableNops else .ok st

/-- Modelled from the spec: OP_CHECKSIG / OP_CHECKSIGVERIFY — pop public key
and signature, remove the signature's push from the script code
(FIND_AND_DELETE), apply the flag-gated encoding checks, delegate to the
checker, and push the boolean result (or verify it). -/
def opCheckSigCore (chk : BaseSignatureChecker) (vf : VFlags) (fs : List Nat)
    (verifyVariant : Bool) (st : ExecState) : Except ScriptError ExecState :=
  match st.stack with
  | vchPubKey :: vchSig :: rest =>
    let sc := findAndDelete (pushEncode vchSig) fs
    match checkSigEncodingE vf vchSig with
    | .error e => .error e
    | .ok _ =>
      match checkPubKeyEncodingE vf vchPubKey with
      | .error e => .error e
      | .ok _ =>
        let res := chk.checkSig vchSig vchPubKey sc
        if verifyVariant then
          if res then .ok { st with stack := rest } else .error .checkSigVerifyFailed
        else .ok { st with stack := boolItem res :: rest }
  | _ => .error .invalidStackOperation

/-- Modelled from the spec: the ordered subset-matching loop of
OP_CHECKMULTISIG — each signature must match, in order, some subsequent
public key; running out of keys with signatures left is a failure; encoding
checks apply to each attempted pair. -/
def multisigLoop (chk : BaseSignatureChecker) (vf : VFlags) (sc : List Nat) :
    List Item → List Item → Except ScriptError Bool
  | [], _ => .ok true
  | _ :: _, [] => .ok false
  | s :: ss, k :: ks =>
    match checkSigEncodingE vf s with
    | .error e => .error e
    | .ok _ =>
      match checkPubKeyEncodingE vf k with
      | .error e => .error e
      | .ok _ =>
        if chk.checkSig s k sc then multisigLoop chk vf sc ss ks
        else multisigLoop chk vf sc (s :: ss) ks

/-- Modelled from the spec: OP_CHECKMULTISIG / OP_CHECKMULTISIGVERIFY — pop
the key count (0..20, counted toward the operation limit), the keys, the
signature count (0..nKeys), the signatures and the dummy element (required
empty under NULLDUMMY), delete all signature pushes from the script code,
run the ordered matching loop and push (or verify) the result. -/
def opCheckMultisigCore (chk : BaseSignatureChecker) (vf : VFlags) (fs : List Nat)
    (verifyVariant : Bool) (st : ExecState) : Except ScriptError ExecState :=
  match st.stack with
  | [] => .error .invalidStackOperation
  | encN :: r0 =>
    match decodeNum vf.minimaldata 4 encN with
    | .error e => .error e
    | .ok nK =>
      if nK < 0 ∨ 20 < nK then .error .pubkeyCount
      else
        let nKeys := nK.toNat
        let oc := st.opCount + nKeys
        if 201 < oc then .error .opCount
        else if r0.length < nKeys then .error .invalidStackOperation
        else
          let keys := r0.take nKeys
          let r1 := r0.drop nKeys
          match r1 with
          | [] => .error .invalidStackOperation
          | encM :: r2 =>
            match decodeNum vf.minimaldata 4 encM with
            | .error e => .error e
            | .ok nS =>
              if nS < 0 ∨ nK < nS then .error .sigCount
              else
                let nSigs := nS.toNat
                if r2.length < nSigs then .error .invalidStackOperation
                else
                  let sigs := r2.take nSigs
                  let r3 := r2.drop nSigs
                  match r3 with
                  | [] => .error .invalidStackOperation
                  | dummy :: r4 =>
                    if vf.nulldummy && !dummy.isEmpty then .error .sigNullDummy
                    else
                      let sc := sigs.foldl (fun acc s => findAndDelete (pushEncode s) acc) fs
                      match multisigLoop chk vf sc sigs keys with
                      | .error e => .error e
                      | .ok success =>
                        let st2 := { st with stack := boolItem success :: r4, opCount := oc }
                        if verifyVariant then
                          if success then .ok { st2 with stack := r4 }
                          else .error .checkMultisigVerifyFailed
                        else .ok st2

/-- Modelled from the spec: OP_NOT — boolean-negate the top number. -/
def opNotCore (vf : VFlags) (st : ExecState) : Except ScriptError ExecState :=
  match st.stack with
  | [] => .error .invalidStackOperation
  | top :: rest =>
    match decodeNum vf.minimaldata 4 top with
    | .error e => .error e
    | .ok n => .ok { st with stack := encodeNum (if n = 0 then 1 else 0) :: rest }

/-- Modelled from the spec: OP_ADD — add the two top numbers, checked
through the script-number decoder. -/
def opAddCore (vf : VFlags) (st : ExecState) : Except ScriptError ExecState :=
  match st.stack with
  | a :: b :: rest =>
    match decodeNum vf.minimaldata 4 a with
    | .error e => .error e
    | .ok n1 =>
      match decodeNum vf.minimaldata 4 b with
      | .error e => .error e
      | .ok n2 => .ok { st with stack := encodeNum (n2 + n1) :: rest }
  | _ => .error .invalidStackOperation

/-- Modelled from the spec: dispatch of one executed opcode (the big switch
of `EvalScript`); unknown opcodes are a bad-opcode failure. -/
def execOpcode (O : HashOracle) (chk : BaseSignatureChecker) (vf : VFlags) (fs : List Nat)
    (fExec : Bool) (op : Nat) (st : ExecState) : Except ScriptError ExecState :=
  if op = 79 then .ok { st with stack := encodeNum (-1) :: st.stack }
  else if 81 ≤ op ∧ op ≤ 96 then .ok { st with stack := encodeNum ((op : Int) - 80) :: st.stack }
  else if op = 97 then .ok st
  else if op = 99 then opIf false fExec st
  else if op = 100 then opIf true fExec st
  else if op = 103 then opElse st
  else if op = 104 then opEndif st
  else if op = 105 then opVerify st
  else if op = 106 then .error .opReturn
  else if op = 107 then
    match st.stack with
    | [] => .error .invalidStackOperation
    | top :: rest => .ok { st with stack := rest, altstack := top :: st.altstack }
  else if op = 108 then
    match st.altstack with
    | [] => .error .invalidAltstackOperation
    | top :: rest => .ok { st with stack := top :: st.stack, altstack := rest }
  else if op = 117 then
    match st.stack with
    | [] => .error .invalidStackOperation
    | _ :: rest => .ok { st with stack := rest }
  else if op = 118 then
    match st.stack with
    | [] => .error .invalidStackOperation
    | top :: rest => .ok { st with stack := top :: top :: rest }
  else if op = 135 ∨ op = 136 then
    match st.stack with
    | a :: b :: rest =>
      let eq := decide (a = b)
      if op = 136 then
        if eq then .ok { st with stack := rest } else .error .equalVerifyFailed
      else .ok { st with stack := boolItem eq :: rest }
    | _ => .error .invalidStackOperation
  else if op = 145 then opNotCore vf st
  else if op = 147 then opAddCore vf st
  else if op = 169 then
    match st.stack with
    | [] => .error .invalidStackOperation
    | top :: rest => .ok { st with stack := O.hash160 top :: rest }
  else if op = 170 then
    match st.stack with
    | [] => .error .invalidStackOperation
    | top :: rest => .ok { st with stack := O.hash256 top :: rest }
  else if op = 172 then opCheckSigCore chk vf fs false st
  else if op = 173 then opCheckSigCore chk vf fs true st
  else if op = 174 then opCheckMultisigCore chk vf fs false st
  else if op = 175 then opCheckMultisigCore chk vf fs true st
  else if op = 177 then
    if vf.cltv then opCheckLockTime chk vf false st else opNopGate vf st
  else if op = 178 then
    if vf.csv then opCheckLockTime chk vf true st else opNopGate vf st
  else if op = 179 then
    if vf.withdraw then opWithdrawProof chk vf st else opNopGate vf st
  else if op = 180 then
    if vf.withdraw then opReorgProof chk st else opNopGate vf st
  else if op = 176 ∨ (181 ≤ op ∧ op ≤ 185) then opNopGate vf st
  else .error .badOpcode

/-- Operation counting: opcodes above OP_16 count toward the per-script
operation limit. -/
def bumpOpCount (op : Nat) (st : ExecState) : ExecState :=
  if 96 < op then { st with opCount := st.opCount + 1 } else st

/-- Modelled from the spec: push handling with the minimal-push gate and
opcode dispatch; inside a skipped branch only the conditional opcodes are
executed. -/
def stepDispatch (O : HashOracle) (chk : BaseSignatureChecker) (vf : VFlags) (fs : List Nat)
    (op : Nat) (data : List Nat) (st1 : ExecState) : Except ScriptError ExecState :=
  if (!st1.condStack.contains false) && decide (op ≤ 78) then
    if vf.minimaldata && !checkMinimalPush data op then .error .minimalData
    else .ok { st1 with stack := data :: st1.stack }
  else if (!st1.condStack.contains false) || (decide (99 ≤ op) && decide (op ≤ 104)) then
    execOpcode O chk vf fs (!st1.condStack.contains false) op st1
  else .ok st1

/-- Combined stack plus alt-stack depth bound, applied after every
operation. -/
def stackGuard (r : Except ScriptError ExecState) : Except ScriptError ExecState :=
  match r with
  | .error e => .error e
  | .ok st2 =>
    if 1000 < st2.stack.length + st2.altstack.length then .error .stackSize
    else .ok st2

/-- Modelled from the spec: one iteration of the main `EvalScript` loop —
push-size bound, operation counting for opcodes above OP_16, disabled
opcodes (failing even in skipped branches), push handling with the
minimal-push gate, dispatch (skipped branches only execute the conditional
opcodes), and the combined stack-size bound. -/
def execStep (O : HashOracle) (chk : BaseSignatureChecker) (vf : VFlags) (fs : List Nat)
    (op : Nat) (data : List Nat) (st : ExecState) : Except ScriptError ExecState :=
  if 520 < data.length then .error .pushSize
  else if 96 < op ∧ 201 < st.opCount + 1 then .error .opCount
  else if isDisabledOpcode op then .error .disabledOpcode
  else stackGuard (stepDispatch O chk vf fs op data (bumpOpCount op st))

/-- Modelled from the spec: the fuel-indexed main loop of `EvalScript`; each
iteration decodes one operation (consuming at least one byte) and executes
it.  `none` is the out-of-fuel marker, shown below to be unreachable when
the fuel is at least the script length. -/
def runFuel (O : HashOracle) (chk : BaseSignatureChecker) (vf : VFlags) (fs : List Nat) :
    Nat → ExecState → List Nat → Option (Except ScriptError ExecState)
  | _, st, [] => some (.ok st)
  | 0, _, _ :: _ => none
  | fuel + 1, st, b :: rest =>
    match getOp b rest with
    | none => some (.error .badOpcode)
    | some (op, data, rest2) =>
      match execStep O chk vf fs op data st with
      | .error e => some (.error e)
      | .ok st2 => runFuel O chk vf fs fuel st2 rest2

/-- Modelled from the spec: `EvalScript` (declared at `interpreter.h:176`)
run with an explicit fuel bound: script-size bound, main loop, final
unbalanced-conditional check.  Success returns the final stack. -/
def EvalScriptFuel (O : HashOracle) (stack : Stack) (script : List Nat) (flags : Nat)
    (chk : BaseSignatureChecker) (fuel : Nat) : Option (Except ScriptError Stack) :=
  if 10000 < script.length then some (.error .scriptSize)
  else
    match runFuel O chk (toVFlags flags) script fuel ⟨stack, [], [], 0⟩ script with
    | none => none
    | some (.error e) => some (.error e)
    | some (.ok st) =>
      some (if st.condStack.isEmpty then .ok st.stack else .error .unbalancedConditional)

/-- Modelled from the spec: `bool EvalScript(stack, script, flags, checker,
error)` of `interpreter.h:176` — evaluate the script on the given stack; a
`.ok` result is the mutated stack, a `.error` result carries the specific
script-error code. -/
def EvalScript (O : HashOracle) (stack : Stack) (script : List Nat) (flags : Nat)
    (chk : BaseSignatureChecker) : Except ScriptError Stack :=
  (EvalScriptFuel O stack script flags chk script.length).getD (.error .unknownError)

/-- Modelled from the spec: `bool VerifyScript(scriptSig, scriptPubKey,
flags, checker, error)` of `interpreter.h:177` — the orchestration of spec
section 4.5: the SIGPUSHONLY gate, evaluation of the spending script then
the claimed-output script, top-of-stack truthiness, and the P2SH redeem
path. -/
def VerifyScript (O : HashOracle) (scriptSig scriptPubKey : List Nat) (flags : Nat)
    (chk : BaseSignatureChecker) : Except ScriptError Unit :=
  let vf := toVFlags flags
  if vf.sigpushonly && !isPushOnly scriptSig then .error .sigPushOnly
  else
    match EvalScript O [] scriptSig flags chk with
    | .error e => .error e
    | .ok stack1 =>
      match EvalScript O stack1 scriptPubKey flags chk with
      | .error e => .error e
      | .ok stack2 =>
        match stack2 with
        | [] => .error .evalFalse
        | top :: _ =>
          if !castToBool top then .error .evalFalse
          else if vf.p2sh && isPayToScriptHash scriptPubKey then
            if !isPushOnly scriptSig then .error .sigPushOnly
            else
              match stack1 with
              | [] => .error .unknownError
              | redeemSer :: restStack =>
                match EvalScript O restStack redeemSer flags chk with
                | .error e => .error e
                | .ok st3 =>
                  match st3 with
                  | [] => .error .evalFalse
                  | t :: _ => if castToBool t then .ok () else .error .evalFalse
          else .ok ()

/-! ## Auxiliary definitions for the theorems below -/

/-- Pointwise order on decoded flag words used by the soft-fork
monotonicity theorem: the left word only restricts (every purely
restricting flag set on the left is set on the right) while the
semantics-changing flags (CLTV, CSV, WITHDRAW,
INCREASE_CONFIRMATIONS_REQUIRED) agree. -/
def VLE (a b : VFlags) : Prop :=
  (a.p2sh = true → b.p2sh = true) ∧
  (a.strictenc = true → b.strictenc = true) ∧
  (a.dersig = true → b.dersig = true) ∧
  (a.lows = true → b.lows = true) ∧
  (a.nulldummy = true → b.nulldummy = true) ∧
  (a.sigpushonly = true → b.sigpushonly = true) ∧
  (a.minimaldata = true → b.minimaldata = true) ∧
  (a.discourageNops = true → b.discourageNops = true) ∧
  a.cltv = b.cltv ∧ a.csv = b.csv ∧ a.withdraw = b.withdraw ∧ a.increaseConfirm = b.increaseConfirm

/-- Identity hash oracle used in concrete examples (the hash collaborator
is opaque, so any concrete instance serves). -/
def exampleOracle : HashOracle := ⟨fun x => x, fun x => x⟩

/-- Concrete checker whose lock-time comparison always succeeds. -/
def exampleLockTimeChecker : BaseSignatureChecker :=
  { baseSignatureChecker with checkLockTime := fun _ _ => true }

/-- Concrete checker recognising exactly the signature/key pairs
`([1],[10])` and `([2],[20])`. -/
def exampleMultisigChecker : BaseSignatureChecker :=
  { baseSignatureChecker with
    checkSig := fun s k _ => decide ((s = [1] ∧ k = [10]) ∨ (s = [2] ∧ k = [20])) }

/-- Concrete example transaction: one input, two outputs. -/
def exampleTx : CTransaction :=
  { nVersion := 1
    vin := [{ prevout := { hash := List.replicate 32 0, n := 0 }, scriptSig := [], nSequence := 4294967295 }]
    vout := [{ nValue := .explicitAmount 50, scriptPubKey := [81] },
             { nValue := .explicitAmount 7, scriptPubKey := [82] }]
    nLockTime := 0 }

/-! # Theorems -/

/-- Claim C5: on the base signature checker, every capability returns a
deterministic safe unsupported result for all arguments: `CheckSig` returns
false, `CheckLockTime` returns false, `GetValueIn`, `GetValueInPrevIn` and
`GetTransactionFee` return the sentinel `-1`, `IsConfirmedBitcoinBlock`
returns false, and `GetOutputOffsetFromCurrent` and `GetPrevOut` return a
safe default value rather than failing catastrophically. -/
theorem baseSignatureChecker_unsupported_defaults :
    (∀ sig pk sc, baseSignatureChecker.checkSig sig pk sc = false) ∧
    (∀ n fSeq, baseSignatureChecker.checkLockTime n fSeq = false) ∧
    baseSignatureChecker.getValueIn = CTxOutValue.explicitAmount (-1) ∧
    baseSignatureChecker.getValueInPrevIn = CTxOutValue.explicitAmount (-1) ∧
    baseSignatureChecker.getTransactionFee = -1 ∧
    (∀ h c, baseSignatureChecker.isConfirmedBitcoinBlock h c = false) ∧
    (∀ off, baseSignatureChecker.getOutputOffsetFromCurrent off = nullCTxOut) ∧
    baseSignatureChecker.getPrevOut = nullCOutPoint :=
  ⟨fun _ _ _ => rfl, fun _ _ => rfl, rfl, rfl, rfl, fun _ _ => rfl, fun _ => rfl, rfl⟩

/-- Claim C10: the embedded-transaction checker constructed from a mutable
transaction produces, for all arguments, the same `CheckSig`,
`CheckLockTime` and `GetValueIn` results as a borrowed
`TransactionNoWithdrawsSignatureChecker` bound to the finalized value of
that transaction at construction time; the checker owns its own finalized
copy, so its results are a function of that construction-time value alone
and cannot be affected by later mutation of the caller's transaction. -/
theorem mutableChecker_equals_borrowed_checker
    (verifier : Item → Item → SighashDigest → Bool) (mtx : CMutableTransaction)
    (nIn : Nat) (v : CTxOutValue) :
    (∀ sig pk sc,
        (MutableTransactionNoWithdrawsSignatureChecker verifier mtx nIn v).checkSig sig pk sc =
        (TransactionNoWithdrawsSignatureChecker verifier (toCTransaction mtx) nIn v).checkSig sig pk sc) ∧
    (∀ n fSeq,
        (MutableTransactionNoWithdrawsSignatureChecker verifier mtx nIn v).checkLockTime n fSeq =
        (TransactionNoWithdrawsSignatureChecker verifier (toCTransaction mtx) nIn v).checkLockTime n fSeq) ∧
    (MutableTransactionNoWithdrawsSignatureChecker verifier mtx nIn v).getValueIn =
      (TransactionNoWithdrawsSignatureChecker verifier (toCTransaction mtx) nIn v).getValueIn :=
  ⟨fun _ _ _ => rfl, fun _ _ => rfl, rfl⟩

/-- Claim C2: `SignatureHash` is a pure, deterministic function — two
invocations with identical arguments yield identical digests. -/
theorem signatureHash_deterministic (s1 s2 : List Nat) (v1 v2 : CTxOutValue)
    (tx1 tx2 : CTransaction) (i1 i2 h1 h2 : Nat)
    (hs : s1 = s2) (hv : v1 = v2) (htx : tx1 = tx2) (hi : i1 = i2) (hh : h1 = h2) :
    SignatureHash s1 v1 tx1 i1 h1 = SignatureHash s2 v2 tx2 i2 h2 := by
  subst hs hv htx hi hh
  rfl

/-- Witness for claim C2 at concrete arguments. -/
theorem signatureHash_deterministic_witness :
    SignatureHash [81] (.explicitAmount 50) exampleTx 0 1 =
    SignatureHash [81] (.explicitAmount 50) exampleTx 0 1 :=
  signatureHash_deterministic _ _ _ _ _ _ _ _ _ _ rfl rfl rfl rfl rfl

/-- Claim C4: whenever the (masked) hash type is `SIGHASH_SINGLE` and the
transaction has no output at the input index, `SignatureHash` returns the
one distinguished fixed sentinel digest — the same constant for all such
out-of-range cases — rather than signalling an error. -/
theorem signatureHash_single_out_of_range_sentinel (s : List Nat) (v : CTxOutValue)
    (tx : CTransaction) (i h : Nat)
    (hmask : h % 32 = SIGHASH_SINGLE) (hout : tx.vout.length ≤ i) :
    SignatureHash s v tx i h = SighashDigest.one := by
  by_cases hvin : tx.vin.length ≤ i
  · simp [SignatureHash, hvin]
  · simp [SignatureHash, hvin, hmask, hout]

/-- Witness for claim C4: hash type `0x83` (SINGLE combined with
ANYONECANPAY) and an output index past the end. -/
theorem signatureHash_single_out_of_range_sentinel_witness :
    SignatureHash [81] (.explicitAmount 50) exampleTx 5 131 = SighashDigest.one :=
  signatureHash_single_out_of_range_sentinel _ _ _ _ _ (by decide) (by decide)

/-- Claim C8: for every scriptSig that is not push-only, every scriptPubKey
and every checker, `VerifyScript` with the SIGPUSHONLY flag set fails
immediately with the sig-push-only error code, without evaluating either
script (the result does not depend on the scriptPubKey or the checker). -/
theorem verifyScript_sigpushonly_immediate_failure (O : HashOracle)
    (scriptSig scriptPubKey : List Nat) (flags : Nat) (chk : BaseSignatureChecker)
    (hflag : flags.testBit 5 = true) (hnp : isPushOnly scriptSig = false) :
    VerifyScript O scriptSig scriptPubKey flags chk = .error .sigPushOnly := by
  have hv : (toVFlags flags).sigpushonly = true := hflag
  unfold VerifyScript
  simp [hv, hnp]

/-- Witness for claim C8: scriptSig `OP_NOP` is not push-only, flag word 32
has the SIGPUSHONLY bit. -/
theorem verifyScript_sigpushonly_immediate_failure_witness :
    VerifyScript exampleOracle [97] [81] 32 baseSignatureChecker = .error .sigPushOnly :=
  verifyScript_sigpushonly_immediate_failure _ _ _ _ _ (by decide) (by decide)

/-! ## Termination of the evaluator (claim C1) -/

theorem runFuel_isSome (O : HashOracle) (chk : BaseSignatureChecker) (vf : VFlags)
    (fs : List Nat) :
    ∀ fuel (st : ExecState) (bytes : List Nat), bytes.length ≤ fuel →
      (runFuel O chk vf fs fuel st bytes).isSome = true := by
  intro fuel
  induction fuel with
  | zero =>
    intro st bytes hb
    have hnil : bytes = [] := List.eq_nil_of_length_eq_zero (Nat.le_zero.mp hb)
    subst hnil
    simp [runFuel]
  | succ n ih =>
    intro st bytes hb
    cases bytes with
    | nil => simp [runFuel]
    | cons b rest =>
      simp only [runFuel]
      cases hgo : getOp b rest with
      | none => simp
      | some t =>
        obtain ⟨op, data, rest2⟩ := t
        simp only
        cases hex : execStep O chk vf fs op data st with
        | error e => simp
        | ok st2 =>
          simp only
          apply ih
          have h2 := getOp_rest_length_le hgo
          simp only [List.length_cons] at hb
          omega

theorem runFuel_fuel_irrelevant (O : HashOracle) (chk : BaseSignatureChecker) (vf : VFlags)
    (fs : List Nat) (fuel : Nat) :
    ∀ (st : ExecState) (bytes : List Nat), bytes.length ≤ fuel →
      runFuel O chk vf fs fuel st bytes = runFuel O chk vf fs bytes.length st bytes := by
  induction fuel using Nat.strong_induction_on with
  | _ fuel ih =>
    intro st bytes hb
    cases bytes with
    | nil => cases fuel <;> simp [runFuel]
    | cons b rest =>
      cases fuel with
      | zero => simp only [List.length_cons] at hb; omega
      | succ n =>
        simp only [List.length_cons, runFuel]
        cases hgo : getOp b rest with
        | none => simp
        | some t =>
          obtain ⟨op, data, rest2⟩ := t
          simp only
          cases hex : execStep O chk vf fs op data st with
          | error e => simp
          | ok st2 =>
            simp only
            have h2 := getOp_rest_length_le hgo
            simp only [List.length_cons] at hb
            have e1 : runFuel O chk vf fs n st2 rest2 = runFuel O chk vf fs rest2.length st2 rest2 :=
              ih n (by omega) st2 rest2 (by omega)
            have e2 : runFuel O chk vf fs rest.length st2 rest2 =
                runFuel O chk vf fs rest2.length st2 rest2 :=
              ih rest.length (by omega) st2 rest2 (by omega)
            rw [e1, e2]

/-- Claim C1: for every script (an arbitrary byte string), initial stack,
flag word and checker, the evaluator terminates with a definite verdict —
a boolean success carrying the final stack, or a specific script-error
code — using at most one loop iteration per script byte: with any fuel of
at least the script length the fuel-indexed evaluator never reaches the
out-of-fuel marker and agrees with `EvalScript`.  No other outcome (an
escaping exception) is representable. -/
theorem evalScript_total (O : HashOracle) (stack : Stack) (script : List Nat) (flags : Nat)
    (chk : BaseSignatureChecker) (fuel : Nat) (hfuel : script.length ≤ fuel) :
    EvalScriptFuel O stack script flags chk fuel = some (EvalScript O stack script flags chk) := by
  have hirr : EvalScriptFuel O stack script flags chk fuel =
      EvalScriptFuel O stack script flags chk script.length := by
    unfold EvalScriptFuel
    rw [runFuel_fuel_irrelevant O chk (toVFlags flags) script fuel ⟨stack, [], [], 0⟩ script hfuel]
  have hsome : (EvalScriptFuel O stack script flags chk script.length).isSome = true := by
    unfold EvalScriptFuel
    split_ifs
    · simp
    · have hs := runFuel_isSome O chk (toVFlags flags) script script.length
        ⟨stack, [], [], 0⟩ script (Nat.le_refl _)
      cases hr : runFuel O chk (toVFlags flags) script script.length ⟨stack, [], [], 0⟩ script with
      | none => rw [hr] at hs; simp at hs
      | some r => cases r <;> simp
  obtain ⟨r, hr⟩ := Option.isSome_iff_exists.mp hsome
  rw [hirr, hr]
  unfold EvalScript
  rw [hr]
  rfl

/-- Witness for claim C1 at a concrete script, stack and fuel. -/
theorem evalScript_total_witness :
    EvalScriptFuel exampleOracle [] [81] 0 baseSignatureChecker 5 =
    some (EvalScript exampleOracle [] [81] 0 baseSignatureChecker) :=
  evalScript_total exampleOracle [] [81] 0 baseSignatureChecker 5 (by decide)

/-! ## The lock-time opcodes as gated no-ops (claim C6) -/

/-- Claim C6 counterexample: with only DISCOURAGE_UPGRADABLE_NOPS set (the
CHECKLOCKTIMEVERIFY flag unset), executing the CHECKLOCKTIMEVERIFY opcode is
not a no-op and does not always succeed: the script `OP_1 OP_NOP2` fails
with the discouraged-NOP error while the same script with the opcode
removed succeeds, so the two evaluation results differ. -/
theorem cltv_noop_claim_false :
    EvalScript exampleOracle [] [81, 177] SCRIPT_VERIFY_DISCOURAGE_UPGRADABLE_NOPS
      baseSignatureChecker = .error .discourageUpgradableNops ∧
    EvalScript exampleOracle [] [81] SCRIPT_VERIFY_DISCOURAGE_UPGRADABLE_NOPS
      baseSignatureChecker = .ok [[1]] ∧
    EvalScript exampleOracle [] [81, 177] SCRIPT_VERIFY_DISCOURAGE_UPGRADABLE_NOPS
      baseSignatureChecker ≠
      EvalScript exampleOracle [] [81] SCRIPT_VERIFY_DISCOURAGE_UPGRADABLE_NOPS
        baseSignatureChecker :=
  ⟨by decide, by decide, by decide⟩

theorem execOpcode_lockTimeNop_unset (O : HashOracle) (chk : BaseSignatureChecker)
    (vf : VFlags) (fs : List Nat) (fExec : Bool) (op : Nat) (st : ExecState)
    (hop : (op = 177 ∧ vf.cltv = false) ∨ (op = 178 ∧ vf.csv = false))
    (hdisc : vf.discourageNops = false) :
    execOpcode O chk vf fs fExec op st = .ok st := by
  obtain ⟨rfl, hflag⟩ | ⟨rfl, hflag⟩ := hop <;>
    simp [execOpcode, opNopGate, hflag, hdisc]

/-- Claim C6 (amended): when the CHECKLOCKTIMEVERIFY (resp.
CHECKSEQUENCEVERIFY) flag is unset and DISCOURAGE_UPGRADABLE_NOPS is also
unset, executing the CHECKLOCKTIMEVERIFY (resp. CHECKSEQUENCEVERIFY) opcode
in the evaluator from any machine state — executed branch or not — succeeds
and consumes nothing, leaving the stack, alt stack and conditional stack
unchanged; its only effect is to count one operation (so the overall result
of removing the opcode can still differ through the operation-count limit
or through the script bytes committed to signature digests). -/
theorem cltv_csv_step_noop_when_flags_unset (O : HashOracle) (chk : BaseSignatureChecker)
    (flags : Nat) (fs : List Nat) (op : Nat) (st : ExecState)
    (hop : (op = 177 ∧ flags.testBit 9 = false) ∨ (op = 178 ∧ flags.testBit 10 = false))
    (hdisc : flags.testBit 7 = false)
    (hoc : st.opCount ≤ 200)
    (hsz : st.stack.length + st.altstack.length ≤ 1000) :
    execStep O chk (toVFlags flags) fs op [] st = .ok { st with opCount := st.opCount + 1 } := by
  have hdisc' : (toVFlags flags).discourageNops = false := hdisc
  have hocF : ¬(201 < st.opCount + 1) := by omega
  have hszF : ¬(1000 < st.stack.length + st.altstack.length) := by omega
  obtain ⟨rfl, hflag⟩ | ⟨rfl, hflag⟩ := hop
  · have hflag' : (toVFlags flags).cltv = false := hflag
    cases hc : st.condStack.contains false <;>
      simp [execStep, stackGuard, stepDispatch, bumpOpCount, execOpcode, opNopGate,
        isDisabledOpcode, hflag', hdisc', hocF, hszF, hc]
  · have hflag' : (toVFlags flags).csv = false := hflag
    cases hc : st.condStack.contains false <;>
      simp [execStep, stackGuard, stepDispatch, bumpOpCount, execOpcode, opNopGate,
        isDisabledOpcode, hflag', hdisc', hocF, hszF, hc]

/-- Witness for the amended claim C6: the CHECKLOCKTIMEVERIFY opcode with no
flags set, from a concrete state. -/
theorem cltv_csv_step_noop_when_flags_unset_witness :
    execStep exampleOracle baseSignatureChecker (toVFlags 0) [177] 177 []
      ⟨[[1]], [], [], 0⟩ = .ok ⟨[[1]], [], [], 1⟩ :=
  cltv_csv_step_noop_when_flags_unset exampleOracle baseSignatureChecker 0 [177] 177
    ⟨[[1]], [], [], 0⟩ (Or.inl ⟨rfl, by decide⟩) (by decide) (by decide) (by decide)

/-! ## Ordered multisig matching (claim C7) -/

theorem findAndDelete_pushEncode_singleOp (s : Item) (b : Nat) (hb : b ≠ 0) :
    findAndDelete (pushEncode s) [b] = [b] := by
  have hne : (pushEncode s).isEmpty = false := by
    unfold pushEncode
    split_ifs <;> simp
  have hnp : (pushEncode s).isPrefixOf [b] = false := by
    unfold pushEncode
    split_ifs with h1 h2 h3
    · cases s with
      | nil => simp [List.isPrefixOf, beq_iff_eq]; omega
      | cons c cs => simp [List.isPrefixOf]
    · simp [List.isPrefixOf]
    · simp [List.isPrefixOf]
    · simp [List.isPrefixOf]
  unfold findAndDelete
  rw [hne]
  simp only [List.length_cons, List.length_nil, Bool.false_eq_true, if_false]
  simp [findAndDeleteFuel, hnp]

theorem checkSigEncodingE_of_unset (vf : VFlags) (h1 : vf.dersig = false)
    (h2 : vf.lows = false) (h3 : vf.strictenc = false) (s : Item) :
    checkSigEncodingE vf s = .ok () := by
  unfold checkSigEncodingE
  rw [h1, h2, h3]
  simp

theorem checkPubKeyEncodingE_of_unset (vf : VFlags) (h : vf.strictenc = false) (pk : Item) :
    checkPubKeyEncodingE vf pk = .ok () := by
  unfold checkPubKeyEncodingE
  rw [h]
  simp

/-- Claim C7: CHECKMULTISIG signature matching is order-preserving subset
matching against the public-key list, with no permutations: for keys
`[A, B]` and a checker for which each signature is individually valid
exactly for its corresponding key, a 2-of-2 CHECKMULTISIG evaluation
succeeds when the signatures are presented in key order `[sigA, sigB]` and
fails (pushes false) when they are presented in reversed order
`[sigB, sigA]`. -/
theorem checkmultisig_order_preserving (O : HashOracle) (chk : BaseSignatureChecker)
    (A B sigA sigB : Item)
    (hAA : chk.checkSig sigA A [174] = true)
    (hBB : chk.checkSig sigB B [174] = true)
    (hAB : chk.checkSig sigA B [174] = false) :
    EvalScript O [[2], B, A, [2], sigB, sigA, []] [174] 0 chk = .ok [[1]] ∧
    EvalScript O [[2], B, A, [2], sigA, sigB, []] [174] 0 chk = .ok [[]] := by
  have hfd : ∀ s : Item, findAndDelete (pushEncode s) [174] = [174] := fun s =>
    findAndDelete_pushEncode_singleOp s 174 (by decide)
  have hse : ∀ s : Item, checkSigEncodingE (toVFlags 0) s = .ok () := fun s =>
    checkSigEncodingE_of_unset _ rfl rfl rfl s
  have hpe : ∀ pk : Item, checkPubKeyEncodingE (toVFlags 0) pk = .ok () := fun pk =>
    checkPubKeyEncodingE_of_unset _ rfl pk
  have hdec : decodeNum (toVFlags 0).minimaldata 4 [2] = .ok 2 := by decide
  constructor <;>
    simp [EvalScript, EvalScriptFuel, runFuel, getOp, readData, execStep, stackGuard,
      stepDispatch, bumpOpCount, execOpcode, isDisabledOpcode, opCheckMultisigCore,
      Nat.zero_testBit, multisigLoop, hfd, hse, hpe, hdec, hAA, hBB, hAB, boolItem]

/-- Witness for claim C7 with the concrete two-pair checker: correct order
verifies, reversed order fails. -/
theorem checkmultisig_order_preserving_witness :
    EvalScript exampleOracle [[2], [20], [10], [2], [2], [1], []] [174] 0
      exampleMultisigChecker = .ok [[1]] ∧
    EvalScript exampleOracle [[2], [20], [10], [2], [1], [2], []] [174] 0
      exampleMultisigChecker = .ok [[]] :=
  checkmultisig_order_preserving exampleOracle exampleMultisigChecker [10] [20] [1] [2]
    (by decide) (by decide) (by decide)

/-! ## Sighash output isolation (claim C3) -/

theorem singleOutputs_set_ne (o' : CTxOut) :
    ∀ (l : List CTxOut) (i j : Nat), j ≠ i →
      singleOutputs i (l.set j o') = singleOutputs i l := by
  intro l
  induction l with
  | nil => intro i j h; simp
  | cons o os ih =>
    intro i j h
    cases j with
    | zero =>
      cases i with
      | zero => exact absurd rfl h
      | succ k => simp [List.set, singleOutputs]
    | succ m =>
      cases i with
      | zero => simp [List.set, singleOutputs]
      | succ k =>
        simp only [List.set, singleOutputs, List.cons.injEq, true_and]
        exact ih k m (by omega)

/-- Claim C3: sighash output isolation.  For a transaction `tx`, a valid
input index `i` and an output replacement at index `j`: under `SIGHASH_ALL`
replacing any output with a different one changes the digest; under
`SIGHASH_NONE` replacing any output leaves the digest unchanged; under
`SIGHASH_SINGLE` replacing an output at any index other than `i` leaves the
digest unchanged. -/
theorem signatureHash_output_isolation (s : List Nat) (v : CTxOutValue) (tx : CTransaction)
    (i j : Nat) (o' : CTxOut) :
    (∀ hvin : i < tx.vin.length, ∀ hj : j < tx.vout.length,
        o' ≠ tx.vout.get ⟨j, hj⟩ →
        SignatureHash s v tx i SIGHASH_ALL ≠
          SignatureHash s v { tx with vout := tx.vout.set j o' } i SIGHASH_ALL) ∧
    SignatureHash s v tx i SIGHASH_NONE =
      SignatureHash s v { tx with vout := tx.vout.set j o' } i SIGHASH_NONE ∧
    (j ≠ i →
      SignatureHash s v tx i SIGHASH_SINGLE =
        SignatureHash s v { tx with vout := tx.vout.set j o' } i SIGHASH_SINGLE) := by
  refine ⟨?_, ?_, ?_⟩
  · intro hvin hj hne heq
    have hvinle : ¬(tx.vin.length ≤ i) := Nat.not_le.mpr hvin
    have hvout := congrArg
      (fun d => match d with
        | SighashDigest.one => ([] : List CTxOut)
        | SighashDigest.digest p => p.vout) heq
    simp only [SignatureHash, SIGHASH_ALL, SIGHASH_SINGLE, SIGHASH_NONE] at hvout
    simp [hvinle] at hvout
    have h2 := congrArg (fun l => l[j]?) hvout
    simp only [List.getElem?_set_self hj, List.getElem?_eq_getElem hj] at h2
    exact hne (by simp only [List.get_eq_getElem]; exact (Option.some.inj h2).symm)
  · by_cases hvin : tx.vin.length ≤ i
    · simp [SignatureHash, hvin]
    · simp [SignatureHash, hvin, SIGHASH_NONE, SIGHASH_SINGLE]
  · intro hji
    by_cases hvin : tx.vin.length ≤ i
    · simp [SignatureHash, hvin]
    · by_cases hout : tx.vout.length ≤ i
      · simp [SignatureHash, hvin, hout, SIGHASH_SINGLE, List.length_set]
      · simp [SignatureHash, hvin, hout, SIGHASH_SINGLE, SIGHASH_NONE, List.length_set,
          singleOutputs_set_ne o' tx.vout i j hji]

/-- Witness for claim C3 at the concrete two-output example transaction:
input index 0, output 1 replaced by a different output. -/
theorem signatureHash_output_isolation_witness :
    (SignatureHash [81] (.explicitAmount 50) exampleTx 0 SIGHASH_ALL ≠
      SignatureHash [81] (.explicitAmount 50)
        { exampleTx with vout := exampleTx.vout.set 1 nullCTxOut } 0 SIGHASH_ALL) ∧
    (SignatureHash [81] (.explicitAmount 50) exampleTx 0 SIGHASH_NONE =
      SignatureHash [81] (.explicitAmount 50)
        { exampleTx with vout := exampleTx.vout.set 1 nullCTxOut } 0 SIGHASH_NONE) ∧
    (SignatureHash [81] (.explicitAmount 50) exampleTx 0 SIGHASH_SINGLE =
      SignatureHash [81] (.explicitAmount 50)
        { exampleTx with vout := exampleTx.vout.set 1 nullCTxOut } 0 SIGHASH_SINGLE) := by
  have h := signatureHash_output_isolation [81] (.explicitAmount 50) exampleTx 0 1 nullCTxOut
  exact ⟨h.1 (by decide) (by decide) (by decide), h.2.1, h.2.2 (by decide)⟩

/-! ## Soft-fork flag monotonicity (claim C9)

A run that succeeds under a larger flag word also succeeds, with the same
final state, under a smaller flag word, provided the two words agree on the
semantics-changing flags (CLTV, CSV, WITHDRAW,
INCREASE_CONFIRMATIONS_REQUIRED): every other flag only adds failure
conditions without altering any stack effect. -/

theorem decodeNum_mono {m m' : Bool} (hm : m = true → m' = true) {sz : Nat} {v : List Nat}
    {n : Int} (h : decodeNum m' sz v = .ok n) : decodeNum m sz v = .ok n := by
  unfold decodeNum at h ⊢
  by_cases h1 : sz < v.length
  · rw [if_pos h1] at h
    exact absurd h (by simp)
  · rw [if_neg h1] at h ⊢
    by_cases h2 : (m' = true ∧ ¬(isMinimallyEncodedNum v = true))
    · rw [if_pos h2] at h
      exact absurd h (by simp)
    · rw [if_neg h2] at h
      rw [if_neg fun hcon => h2 ⟨hm hcon.1, hcon.2⟩]
      exact h

theorem checkSigEncodingE_mono {vf vf' : VFlags} (hv : VLE vf vf') (s : Item)
    (h : checkSigEncodingE vf' s = .ok ()) : checkSigEncodingE vf s = .ok () := by
  obtain ⟨-, hstrict, hder, hlows, -, -, -, -, -, -, -, -⟩ := hv
  have himp2 : ((vf.dersig || vf.lows || vf.strictenc) && !isValidSignatureEncoding s) = true →
      ((vf'.dersig || vf'.lows || vf'.strictenc) && !isValidSignatureEncoding s) = true := by
    intro hc
    simp only [Bool.and_eq_true, Bool.or_eq_true] at hc ⊢
    refine ⟨?_, hc.2⟩
    rcases hc.1 with (hx | hx) | hx
    · exact Or.inl (Or.inl (hder hx))
    · exact Or.inl (Or.inr (hlows hx))
    · exact Or.inr (hstrict hx)
  have himp3 : (vf.lows && !isLowDERSignature s) = true →
      (vf'.lows && !isLowDERSignature s) = true := by
    intro hc
    simp only [Bool.and_eq_true] at hc ⊢
    exact ⟨hlows hc.1, hc.2⟩
  have himp4 : (vf.strictenc && !isDefinedHashtypeSignature s) = true →
      (vf'.strictenc && !isDefinedHashtypeSignature s) = true := by
    intro hc
    simp only [Bool.and_eq_true] at hc ⊢
    exact ⟨hstrict hc.1, hc.2⟩
  unfold checkSigEncodingE at h ⊢
  by_cases h1 : List.isEmpty s = true
  · rw [if_pos h1]
  · rw [if_neg h1] at h ⊢
    by_cases h2 : ((vf'.dersig || vf'.lows || vf'.strictenc) && !isValidSignatureEncoding s) = true
    · rw [if_pos h2] at h
      exact absurd h (by simp)
    · rw [if_neg h2] at h
      rw [if_neg fun hc => h2 (himp2 hc)]
      by_cases h3 : (vf'.lows && !isLowDERSignature s) = true
      · rw [if_pos h3] at h
        exact absurd h (by simp)
      · rw [if_neg h3] at h
        rw [if_neg fun hc => h3 (himp3 hc)]
        by_cases h4 : (vf'.strictenc && !isDefinedHashtypeSignature s) = true
        · rw [if_pos h4] at h
          exact absurd h (by simp)
        · rw [if_neg h4] at h
          rw [if_neg fun hc => h4 (himp4 hc)]

theorem checkPubKeyEncodingE_mono {vf vf' : VFlags} (hv : VLE vf vf') (pk : Item)
    (h : checkPubKeyEncodingE vf' pk = .ok ()) : checkPubKeyEncodingE vf pk = .ok () := by
  obtain ⟨-, hstrict, -, -, -, -, -, -, -, -, -, -⟩ := hv
  have himp : (vf.strictenc && !isCompressedOrUncompressedPubKey pk) = true →
      (vf'.strictenc && !isCompressedOrUncompressedPubKey pk) = true := by
    intro hc
    simp only [Bool.and_eq_true] at hc ⊢
    exact ⟨hstrict hc.1, hc.2⟩
  unfold checkPubKeyEncodingE at h ⊢
  by_cases h1 : (vf'.strictenc && !isCompressedOrUncompressedPubKey pk) = true
  · rw [if_pos h1] at h
    exact absurd h (by simp)
  · rw [if_neg fun hc => h1 (himp hc)]

theorem opNopGate_mono {vf vf' : VFlags} (hv : VLE vf vf') {st : ExecState}
    {st' : ExecState} (h : opNopGate vf' st = .ok st') : opNopGate vf st = .ok st' := by
  obtain ⟨-, -, -, -, -, -, -, hdisc, -, -, -, -⟩ := hv
  unfold opNopGate at h ⊢
  by_cases h1 : vf'.discourageNops = true
  · rw [if_pos h1] at h
    exact absurd h (by simp)
  · rw [if_neg h1] at h
    rw [if_neg fun hc => h1 (hdisc hc)]
    exact h

theorem opCheckLockTime_mono {vf vf' : VFlags} (hv : VLE vf vf') (chk : BaseSignatureChecker)
    (fSeq : Bool) {st st' : ExecState}
    (h : opCheckLockTime chk vf' fSeq st = .ok st') : opCheckLockTime chk vf fSeq st = .ok st' := by
  have hmin : vf.minimaldata = true → vf'.minimaldata = true := hv.2.2.2.2.2.2.1
  obtain ⟨stk, alt, cond, oc⟩ := st
  cases stk with
  | nil => simp [opCheckLockTime] at h
  | cons top rest =>
    simp only [opCheckLockTime] at h ⊢
    cases hdn : decodeNum vf'.minimaldata 5 top with
    | error e => simp [hdn] at h
    | ok n =>
      simp only [hdn] at h
      simp only [decodeNum_mono hmin hdn]
      exact h

theorem opWithdrawProof_congr {vf vf' : VFlags} (hinc : vf.increaseConfirm = vf'.increaseConfirm)
    (chk : BaseSignatureChecker) (st : ExecState) :
    opWithdrawProof chk vf st = opWithdrawProof chk vf' st := by
  unfold opWithdrawProof
  rw [hinc]

theorem multisigLoop_mono {vf vf' : VFlags} (hv : VLE vf vf') (chk : BaseSignatureChecker)
    (sc : List Nat) :
    ∀ (keys sigs : List Item) (b : Bool), multisigLoop chk vf' sc sigs keys = .ok b →
      multisigLoop chk vf sc sigs keys = .ok b := by
  intro keys
  induction keys with
  | nil =>
    intro sigs b h
    cases sigs with
    | nil => simpa [multisigLoop] using h
    | cons s ss => simpa [multisigLoop] using h
  | cons k ks ih =>
    intro sigs b h
    cases sigs with
    | nil => simpa [multisigLoop] using h
    | cons s ss =>
      rw [multisigLoop] at h
      cases hse : checkSigEncodingE vf' s with
      | error e => simp [hse] at h
      | ok u =>
        cases u
        simp only [hse] at h
        cases hpe : checkPubKeyEncodingE vf' k with
        | error e => simp [hpe] at h
        | ok u2 =>
          cases u2
          simp only [hpe] at h
          rw [multisigLoop]
          simp only [checkSigEncodingE_mono hv s hse, checkPubKeyEncodingE_mono hv k hpe]
          cases hcs : chk.checkSig s k sc with
          | true =>
            simp only [hcs, if_true] at h ⊢
            exact ih ss b h
          | false =>
            simp only [hcs, Bool.false_eq_true, if_false] at h ⊢
            exact ih (s :: ss) b h

theorem opCheckSigCore_mono {vf vf' : VFlags} (hv : VLE vf vf')
    (chk : BaseSignatureChecker) (fs : List Nat) (vv : Bool) {st st' : ExecState}
    (h : opCheckSigCore chk vf' fs vv st = .ok st') : opCheckSigCore chk vf fs vv st = .ok st' := by
  obtain ⟨stk, alt, cond, oc⟩ := st
  cases stk with
  | nil => simp [opCheckSigCore] at h
  | cons pk rest0 =>
    cases rest0 with
    | nil => simp [opCheckSigCore] at h
    | cons sig rest =>
      simp only [opCheckSigCore] at h ⊢
      cases hse : checkSigEncodingE vf' sig with
      | error e => simp [hse] at h
      | ok u =>
        cases u
        simp only [hse] at h
        cases hpe : checkPubKeyEncodingE vf' pk with
        | error e => simp [hpe] at h
        | ok u2 =>
          cases u2
          simp only [hpe] at h
          simp only [checkSigEncodingE_mono hv sig hse, checkPubKeyEncodingE_mono hv pk hpe]
          exact h

theorem opCheckMultisigCore_mono {vf vf' : VFlags} (hv : VLE vf vf') (chk : BaseSignatureChecker)
    (fs : List Nat) (vv : Bool) {st st' : ExecState}
    (h : opCheckMultisigCore chk vf' fs vv st = .ok st') :
    opCheckMultisigCore chk vf fs vv st = .ok st' := by
  have hmin : vf.minimaldata = true → vf'.minimaldata = true := hv.2.2.2.2.2.2.1
  have hnull : vf.nulldummy = true → vf'.nulldummy = true := hv.2.2.2.2.1
  obtain ⟨stk, alt, cond, oc⟩ := st
  cases stk with
  | nil => simp [opCheckMultisigCore] at h
  | cons encN r0 =>
    simp only [opCheckMultisigCore] at h ⊢
    cases hdn : decodeNum vf'.minimaldata 4 encN with
    | error e => simp [hdn] at h
    | ok nK =>
      simp only [hdn] at h
      simp only [decodeNum_mono hmin hdn]
      by_cases hc1 : nK < 0 ∨ 20 < nK
      · rw [if_pos hc1] at h
        exact absurd h (by simp)
      · rw [if_neg hc1] at h ⊢
        by_cases hc2 : 201 < oc + nK.toNat
        · rw [if_pos hc2] at h
          exact absurd h (by simp)
        · rw [if_neg hc2] at h ⊢
          by_cases hc3 : r0.length < nK.toNat
          · rw [if_pos hc3] at h
            exact absurd h (by simp)
          · rw [if_neg hc3] at h ⊢
            cases hr1 : r0.drop nK.toNat with
            | nil => simp [hr1] at h
            | cons encM r2 =>
              simp only [hr1] at h ⊢
              cases hdm : decodeNum vf'.minimaldata 4 encM with
              | error e => simp [hdm] at h
              | ok nS =>
                simp only [hdm] at h
                simp only [decodeNum_mono hmin hdm]
                by_cases hd1 : nS < 0 ∨ nK < nS
                · rw [if_pos hd1] at h
                  exact absurd h (by simp)
                · rw [if_neg hd1] at h ⊢
                  by_cases hd2 : r2.length < nS.toNat
                  · rw [if_pos hd2] at h
                    exact absurd h (by simp)
                  · rw [if_neg hd2] at h ⊢
                    cases hr3 : r2.drop nS.toNat with
                    | nil => simp [hr3] at h
                    | cons dummy r4 =>
                      simp only [hr3] at h ⊢
                      cases hnd : (vf'.nulldummy && !dummy.isEmpty) with
                      | true => simp [hnd] at h
                      | false =>
                        simp only [hnd, Bool.false_eq_true, if_false] at h
                        have hnd2 : (vf.nulldummy && !dummy.isEmpty) = false := by
                          cases hx : (vf.nulldummy && !dummy.isEmpty) with
                          | false => rfl
                          | true =>
                            simp only [Bool.and_eq_true] at hx
                            have hy := hnull hx.1
                            rw [Bool.and_eq_false_iff] at hnd
                            rcases hnd with h5 | h5
                            · rw [hy] at h5
                              exact absurd h5 (by simp)
                            · rw [hx.2] at h5
                              exact absurd h5 (by simp)
                        simp only [hnd2, Bool.false_eq_true, if_false]
                        cases hml : multisigLoop chk vf'
                            (List.foldl (fun acc s => findAndDelete (pushEncode s) acc) fs
                              (r2.take nS.toNat)) (r2.take nS.toNat) (r0.take nK.toNat) with
                        | error e => simp [hml] at h
                        | ok success =>
                          simp only [hml] at h
                          simp only [multisigLoop_mono hv chk _ _ _ _ hml]
                          exact h

theorem opNotCore_mono {vf vf' : VFlags} (hv : VLE vf vf') {st st' : ExecState}
    (h : opNotCore vf' st = .ok st') : opNotCore vf st = .ok st' := by
  have hmin : vf.minimaldata = true → vf'.minimaldata = true := hv.2.2.2.2.2.2.1
  obtain ⟨stk, alt, cond, oc⟩ := st
  cases stk with
  | nil => simp [opNotCore] at h
  | cons top rest =>
    simp only [opNotCore] at h ⊢
    cases hdn : decodeNum vf'.minimaldata 4 top with
    | error e => simp [hdn] at h
    | ok n =>
      simp only [hdn] at h
      simp only [decodeNum_mono hmin hdn]
      exact h

theorem opAddCore_mono {vf vf' : VFlags} (hv : VLE vf vf') {st st' : ExecState}
    (h : opAddCore vf' st = .ok st') : opAddCore vf st = .ok st' := by
  have hmin : vf.minimaldata = true → vf'.minimaldata = true := hv.2.2.2.2.2.2.1
  obtain ⟨stk, alt, cond, oc⟩ := st
  cases stk with
  | nil => simp [opAddCore] at h
  | cons a rest0 =>
    cases rest0 with
    | nil => simp [opAddCore] at h
    | cons b rest =>
      simp only [opAddCore] at h ⊢
      cases hdn : decodeNum vf'.minimaldata 4 a with
      | error e => simp [hdn] at h
      | ok n1 =>
        simp only [hdn] at h
        simp only [decodeNum_mono hmin hdn]
        cases hdm : decodeNum vf'.minimaldata 4 b with
        | error e => simp [hdm] at h
        | ok n2 =>
          simp only [hdm] at h
          simp only [decodeNum_mono hmin hdm]
          exact h

theorem execOpcode_mono {vf vf' : VFlags} (hv : VLE vf vf') (O : HashOracle)
    (chk : BaseSignatureChecker) (fs : List Nat) (fExec : Bool) (op : Nat) {st st' : ExecState}
    (h : execOpcode O chk vf' fs fExec op st = .ok st') :
    execOpcode O chk vf fs fExec op st = .ok st' := by
  have hcltv : vf.cltv = vf'.cltv := hv.2.2.2.2.2.2.2.2.1
  have hcsv : vf.csv = vf'.csv := hv.2.2.2.2.2.2.2.2.2.1
  have hwd : vf.withdraw = vf'.withdraw := hv.2.2.2.2.2.2.2.2.2.2.1
  have hinc : vf.increaseConfirm = vf'.increaseConfirm := hv.2.2.2.2.2.2.2.2.2.2.2
  unfold execOpcode
  rw [hcltv, hcsv, hwd]
  unfold execOpcode at h
  by_cases c1 : op = 79
  · rw [if_pos c1] at h ⊢
    exact h
  rw [if_neg c1] at h ⊢
  by_cases c2 : 81 ≤ op ∧ op ≤ 96
  · rw [if_pos c2] at h ⊢
    exact h
  rw [if_neg c2] at h ⊢
  by_cases c3 : op = 97
  · rw [if_pos c3] at h ⊢
    exact h
  rw [if_neg c3] at h ⊢
  by_cases c4 : op = 99
  · rw [if_pos c4] at h ⊢
    exact h
  rw [if_neg c4] at h ⊢
  by_cases c5 : op = 100
  · rw [if_pos c5] at h ⊢
    exact h
  rw [if_neg c5] at h ⊢
  by_cases c6 : op = 103
  · rw [if_pos c6] at h ⊢
    exact h
  rw [if_neg c6] at h ⊢
  by_cases c7 : op = 104
  · rw [if_pos c7] at h ⊢
    exact h
  rw [if_neg c7] at h ⊢
  by_cases c8 : op = 105
  · rw [if_pos c8] at h ⊢
    exact h
  rw [if_neg c8] at h ⊢
  by_cases c9 : op = 106
  · rw [if_pos c9] at h ⊢
    exact h
  rw [if_neg c9] at h ⊢
  by_cases c10 : op = 107
  · rw [if_pos c10] at h ⊢
    exact h
  rw [if_neg c10] at h ⊢
  by_cases c11 : op = 108
  · rw [if_pos c11] at h ⊢
    exact h
  rw [if_neg c11] at h ⊢
  by_cases c12 : op = 117
  · rw [if_pos c12] at h ⊢
    exact h
  rw [if_neg c12] at h ⊢
  by_cases c13 : op = 118
  · rw [if_pos c13] at h ⊢
    exact h
  rw [if_neg c13] at h ⊢
  by_cases c14 : op = 135 ∨ op = 136
  · rw [if_pos c14] at h ⊢
    exact h
  rw [if_neg c14] at h ⊢
  by_cases c15 : op = 145
  · rw [if_pos c15] at h ⊢
    exact opNotCore_mono hv h
  rw [if_neg c15] at h ⊢
  by_cases c16 : op = 147
  · rw [if_pos c16] at h ⊢
    exact opAddCore_mono hv h
  rw [if_neg c16] at h ⊢
  by_cases c17 : op = 169
  · rw [if_pos c17] at h ⊢
    exact h
  rw [if_neg c17] at h ⊢
  by_cases c18 : op = 170
  · rw [if_pos c18] at h ⊢
    exact h
  rw [if_neg c18] at h ⊢
  by_cases c19 : op = 172
  · rw [if_pos c19] at h ⊢
    exact opCheckSigCore_mono hv chk fs false h
  rw [if_neg c19] at h ⊢
  by_cases c20 : op = 173
  · rw [if_pos c20] at h ⊢
    exact opCheckSigCore_mono hv chk fs true h
  rw [if_neg c20] at h ⊢
  by_cases c21 : op = 174
  · rw [if_pos c21] at h ⊢
    exact opCheckMultisigCore_mono hv chk fs false h
  rw [if_neg c21] at h ⊢
  by_cases c22 : op = 175
  · rw [if_pos c22] at h ⊢
    exact opCheckMultisigCore_mono hv chk fs true h
  rw [if_neg c22] at h ⊢
  by_cases c23 : op = 177
  · rw [if_pos c23] at h ⊢
    by_cases hc : vf'.cltv = true
    · rw [if_pos hc] at h ⊢
      exact opCheckLockTime_mono hv chk false h
    · rw [if_neg hc] at h ⊢
      exact opNopGate_mono hv h
  rw [if_neg c23] at h ⊢
  by_cases c24 : op = 178
  · rw [if_pos c24] at h ⊢
    by_cases hc : vf'.csv = true
    · rw [if_pos hc] at h ⊢
      exact opCheckLockTime_mono hv chk true h
    · rw [if_neg hc] at h ⊢
      exact opNopGate_mono hv h
  rw [if_neg c24] at h ⊢
  by_cases c25 : op = 179
  · rw [if_pos c25] at h ⊢
    by_cases hc : vf'.withdraw = true
    · rw [if_pos hc] at h ⊢
      exact (opWithdrawProof_congr hinc chk st).trans h
    · rw [if_neg hc] at h ⊢
      exact opNopGate_mono hv h
  rw [if_neg c25] at h ⊢
  by_cases c26 : op = 180
  · rw [if_pos c26] at h ⊢
    by_cases hc : vf'.withdraw = true
    · rw [if_pos hc] at h ⊢
      exact h
    · rw [if_neg hc] at h ⊢
      exact opNopGate_mono hv h
  rw [if_neg c26] at h ⊢
  by_cases c27 : op = 176 ∨ (181 ≤ op ∧ op ≤ 185)
  · rw [if_pos c27] at h ⊢
    exact opNopGate_mono hv h
  rw [if_neg c27] at h ⊢
  exact h

theorem stepDispatch_mono {vf vf' : VFlags} (hv : VLE vf vf') (O : HashOracle)
    (chk : BaseSignatureChecker) (fs : List Nat) (op : Nat) (data : List Nat)
    {st1 st' : ExecState} (h : stepDispatch O chk vf' fs op data st1 = .ok st') :
    stepDispatch O chk vf fs op data st1 = .ok st' := by
  have hmin : vf.minimaldata = true → vf'.minimaldata = true := hv.2.2.2.2.2.2.1
  unfold stepDispatch at h ⊢
  by_cases c1 : ((!st1.condStack.contains false) && decide (op ≤ 78)) = true
  · rw [if_pos c1] at h ⊢
    by_cases c2 : (vf'.minimaldata && !checkMinimalPush data op) = true
    · rw [if_pos c2] at h
      exact absurd h (by simp)
    · rw [if_neg c2] at h
      have himp : (vf.minimaldata && !checkMinimalPush data op) = true →
          (vf'.minimaldata && !checkMinimalPush data op) = true := by
        intro hc
        simp only [Bool.and_eq_true] at hc ⊢
        exact ⟨hmin hc.1, hc.2⟩
      rw [if_neg fun hc => c2 (himp hc)]
      exact h
  rw [if_neg c1] at h ⊢
  by_cases c3 : ((!st1.condStack.contains false) || (decide (99 ≤ op) && decide (op ≤ 104))) = true
  · rw [if_pos c3] at h ⊢
    exact execOpcode_mono hv O chk fs _ op h
  rw [if_neg c3] at h ⊢
  exact h

theorem execStep_mono {vf vf' : VFlags} (hv : VLE vf vf') (O : HashOracle)
    (chk : BaseSignatureChecker) (fs : List Nat) (op : Nat) (data : List Nat)
    {st st' : ExecState} (h : execStep O chk vf' fs op data st = .ok st') :
    execStep O chk vf fs op data st = .ok st' := by
  unfold execStep at h ⊢
  by_cases c1 : 520 < data.length
  · rw [if_pos c1] at h
    exact absurd h (by simp)
  rw [if_neg c1] at h ⊢
  by_cases c2 : 96 < op ∧ 201 < st.opCount + 1
  · rw [if_pos c2] at h
    exact absurd h (by simp)
  rw [if_neg c2] at h ⊢
  by_cases c3 : isDisabledOpcode op = true
  · rw [if_pos c3] at h
    exact absurd h (by simp)
  rw [if_neg c3] at h ⊢
  cases hd : stepDispatch O chk vf' fs op data (bumpOpCount op st) with
  | error e =>
    rw [hd] at h
    simp [stackGuard] at h
  | ok st2 =>
    rw [hd] at h
    rw [stepDispatch_mono hv O chk fs op data hd]
    exact h

theorem runFuel_mono {vf vf' : VFlags} (hv : VLE vf vf') (O : HashOracle)
    (chk : BaseSignatureChecker) (fs : List Nat) :
    ∀ (fuel : Nat) (st : ExecState) (bytes : List Nat) (st' : ExecState),
      runFuel O chk vf' fs fuel st bytes = some (.ok st') →
      runFuel O chk vf fs fuel st bytes = some (.ok st') := by
  intro fuel
  induction fuel with
  | zero =>
    intro st bytes st' h
    cases bytes with
    | nil => simpa [runFuel] using h
    | cons b rest => simp [runFuel] at h
  | succ n ih =>
    intro st bytes st' h
    cases bytes with
    | nil => simpa [runFuel] using h
    | cons b rest =>
      rw [runFuel] at h ⊢
      cases hgo : getOp b rest with
      | none => simp [hgo] at h
      | some t =>
        obtain ⟨op, data, rest2⟩ := t
        simp only [hgo] at h ⊢
        cases hex : execStep O chk vf' fs op data st with
        | error e => simp [hex] at h
        | ok st2 =>
          simp only [hex] at h
          simp only [execStep_mono hv O chk fs op data hex]
          exact ih st2 rest2 st' h

theorem EvalScript_mono {F Fbig : Nat} (hv : VLE (toVFlags F) (toVFlags Fbig)) (O : HashOracle)
    (stack : Stack) (script : List Nat) (chk : BaseSignatureChecker) {s : Stack}
    (h : EvalScript O stack script Fbig chk = .ok s) : EvalScript O stack script F chk = .ok s := by
  unfold EvalScript EvalScriptFuel at h ⊢
  by_cases c1 : 10000 < script.length
  · rw [if_pos c1] at h
    simp at h
  rw [if_neg c1] at h ⊢
  cases hr : runFuel O chk (toVFlags Fbig) script script.length ⟨stack, [], [], 0⟩ script with
  | none =>
    rw [hr] at h
    simp at h
  | some r =>
    cases r with
    | error e =>
      rw [hr] at h
      simp at h
    | ok stf =>
      rw [hr] at h
      simp only [Option.getD_some] at h
      rw [runFuel_mono hv O chk script script.length ⟨stack, [], [], 0⟩ script stf hr]
      simp only [Option.getD_some]
      exact h

theorem toVFlags_VLE_lor {F G : Nat} (hG : G &&& 7680 = 0) :
    VLE (toVFlags F) (toVFlags (F ||| G)) := by
  have hg : ∀ i, (7680 : Nat).testBit i = true → G.testBit i = false := by
    intro i hi
    have hcong := congrArg (fun x => Nat.testBit x i) hG
    simp only [Nat.testBit_land, Nat.zero_testBit] at hcong
    rw [hi, Bool.and_true] at hcong
    exact hcong
  refine ⟨?_, ?_, ?_, ?_, ?_, ?_, ?_, ?_, ?_, ?_, ?_, ?_⟩
  all_goals simp only [toVFlags]
  · intro hx; rw [Nat.testBit_lor, hx, Bool.true_or]
  · intro hx; rw [Nat.testBit_lor, hx, Bool.true_or]
  · intro hx; rw [Nat.testBit_lor, hx, Bool.true_or]
  · intro hx; rw [Nat.testBit_lor, hx, Bool.true_or]
  · intro hx; rw [Nat.testBit_lor, hx, Bool.true_or]
  · intro hx; rw [Nat.testBit_lor, hx, Bool.true_or]
  · intro hx; rw [Nat.testBit_lor, hx, Bool.true_or]
  · intro hx; rw [Nat.testBit_lor, hx, Bool.true_or]
  · rw [Nat.testBit_lor, hg 9 (by decide), Bool.or_false]
  · rw [Nat.testBit_lor, hg 10 (by decide), Bool.or_false]
  · rw [Nat.testBit_lor, hg 11 (by decide), Bool.or_false]
  · rw [Nat.testBit_lor, hg 12 (by decide), Bool.or_false]

/-- Claim C9 counterexample: verification-flag monotonicity fails as stated.
With `F` the DISCOURAGE_UPGRADABLE_NOPS flag, `G` the CHECKLOCKTIMEVERIFY
flag and a checker whose lock-time check succeeds, the script pair
`([], OP_1 OP_NOP2)` verifies under `F ||| G` but fails under `F` alone:
adding the CLTV flag rescued a script that the discouraged-NOP rule
rejects. -/
theorem verify_flag_monotonicity_claim_false :
    VerifyScript exampleOracle [] [81, 177]
      (SCRIPT_VERIFY_DISCOURAGE_UPGRADABLE_NOPS ||| SCRIPT_VERIFY_CHECKLOCKTIMEVERIFY)
      exampleLockTimeChecker = .ok () ∧
    VerifyScript exampleOracle [] [81, 177] SCRIPT_VERIFY_DISCOURAGE_UPGRADABLE_NOPS
      exampleLockTimeChecker = .error .discourageUpgradableNops ∧
    VerifyScript exampleOracle [] [81, 177] SCRIPT_VERIFY_DISCOURAGE_UPGRADABLE_NOPS
      exampleLockTimeChecker ≠ .ok () :=
  ⟨by decide, by decide, by decide⟩

/-- Claim C9 (amended): soft-fork flag monotonicity holds for every added
flag set `G` that contains none of the four semantics-changing flags
(CHECKLOCKTIMEVERIFY, CHECKSEQUENCEVERIFY, WITHDRAW,
INCREASE_CONFIRMATIONS_REQUIRED, whose bits form the mask 7680): for every
scriptSig, scriptPubKey and checker, if `VerifyScript` succeeds under
`F ||| G` then it succeeds under `F` alone — adding any purely restricting
verification flag can only turn passing scripts into failing ones. -/
theorem verifyScript_flag_monotonic (O : HashOracle) (scriptSig scriptPubKey : List Nat)
    (F G : Nat) (chk : BaseSignatureChecker)
    (hG : G &&& (SCRIPT_VERIFY_CHECKLOCKTIMEVERIFY ||| SCRIPT_VERIFY_CHECKSEQUENCEVERIFY |||
      SCRIPT_VERIFY_WITHDRAW ||| SCRIPT_VERIFY_INCREASE_CONFIRMATIONS_REQUIRED) = 0)
    (hok : VerifyScript O scriptSig scriptPubKey (F ||| G) chk = .ok ()) :
    VerifyScript O scriptSig scriptPubKey F chk = .ok () := by
  have hG' : G &&& 7680 = 0 := hG
  have hv := toVFlags_VLE_lor (F := F) hG'
  have hspo : (toVFlags F).sigpushonly = true → (toVFlags (F ||| G)).sigpushonly = true :=
    hv.2.2.2.2.2.1
  have hp2sh : (toVFlags F).p2sh = true → (toVFlags (F ||| G)).p2sh = true := hv.1
  unfold VerifyScript at hok ⊢
  by_cases c1 : ((toVFlags (F ||| G)).sigpushonly && !isPushOnly scriptSig) = true
  · rw [if_pos c1] at hok
    exact absurd hok (by simp)
  · rw [if_neg c1] at hok
    have himp1 : ((toVFlags F).sigpushonly && !isPushOnly scriptSig) = true →
        ((toVFlags (F ||| G)).sigpushonly && !isPushOnly scriptSig) = true := by
      intro hc
      simp only [Bool.and_eq_true] at hc ⊢
      exact ⟨hspo hc.1, hc.2⟩
    rw [if_neg fun hc => c1 (himp1 hc)]
    cases h1 : EvalScript O [] scriptSig (F ||| G) chk with
    | error e => simp [h1] at hok
    | ok stack1 =>
      simp only [h1] at hok
      simp only [EvalScript_mono hv O [] scriptSig chk h1]
      cases h2 : EvalScript O stack1 scriptPubKey (F ||| G) chk with
      | error e => simp [h2] at hok
      | ok stack2 =>
        simp only [h2] at hok
        simp only [EvalScript_mono hv O stack1 scriptPubKey chk h2]
        cases stack2 with
        | nil => simp at hok
        | cons top rest2 =>
          simp only at hok ⊢
          by_cases c2 : (!castToBool top) = true
          · rw [if_pos c2] at hok
            exact absurd hok (by simp)
          · rw [if_neg c2] at hok
            rw [if_neg c2]
            by_cases c3 : ((toVFlags (F ||| G)).p2sh && isPayToScriptHash scriptPubKey) = true
            · rw [if_pos c3] at hok
              by_cases c4 : ((toVFlags F).p2sh && isPayToScriptHash scriptPubKey) = true
              · rw [if_pos c4]
                by_cases c5 : (!isPushOnly scriptSig) = true
                · rw [if_pos c5] at hok
                  exact absurd hok (by simp)
                · rw [if_neg c5] at hok
                  rw [if_neg c5]
                  cases stack1 with
                  | nil => simp at hok
                  | cons redeemSer restStack =>
                    simp only at hok ⊢
                    cases h3 : EvalScript O restStack redeemSer (F ||| G) chk with
                    | error e => simp [h3] at hok
                    | ok st3 =>
                      simp only [h3] at hok
                      simp only [EvalScript_mono hv O restStack redeemSer chk h3]
                      exact hok
              · rw [if_neg c4]
            · rw [if_neg c3] at hok
              have himp2 : ((toVFlags F).p2sh && isPayToScriptHash scriptPubKey) = true →
                  ((toVFlags (F ||| G)).p2sh && isPayToScriptHash scriptPubKey) = true := by
                intro hc
                simp only [Bool.and_eq_true] at hc ⊢
                exact ⟨hp2sh hc.1, hc.2⟩
              rw [if_neg fun hc => c3 (himp2 hc)]

/-- Witness for the amended claim C9 at concrete inputs (`F = G = 0`). -/
theorem verifyScript_flag_monotonic_witness :
    VerifyScript exampleOracle [] [81] 0 baseSignatureChecker = .ok () :=
  verifyScript_flag_monotonic exampleOracle [] [81] 0 0 baseSignatureChecker (by decide)
    (by decide)

end Elements
